import Mathlib

/-!
Verification of the CROUS-BOT listing monitor.

The Python sources (src/models.py, src/crous_client.py, src/state_store.py,
src/monitor.py) are shallowly embedded below.  Pure functions become Lean
functions; the sqlite-backed state store becomes an explicit record of rows
that each operation threads; wall-clock time and random jitter become explicit
parameters; Python exceptions become `Except PyErr`.  Python string and number
primitives (str.strip, str.lower, int(), float(), str.isdigit, str(int)) are
modelled by hand so that every definition evaluates inside the kernel.
-/

/-- Python exception kinds reachable in the embedded fragment. -/
inductive PyErr
  | valueError
  | overflowError
  | attributeError
  | typeError
deriving DecidableEq, Repr

/-- Characters treated as whitespace by Python's str.strip (ASCII fragment). -/
def pyIsSpace (c : Char) : Bool :=
  c = ' ' || c = '\t' || c = '\n' || c = '\x0d' || c = '\x0b' || c = '\x0c'

/-- ASCII decimal digit test. -/
def isAsciiDigit (c : Char) : Bool :=
  '0' ≤ c && c ≤ '9'

/-- Model of Python str.lower restricted to ASCII letters (all inputs the
claims exercise are ASCII-cased). -/
def pyCharLower (c : Char) : Char :=
  if 'A' ≤ c && c ≤ 'Z' then Char.ofNat (c.toNat + 32) else c

/-- Model of Python str.lower. -/
def pyLower (s : String) : String :=
  ⟨s.data.map pyCharLower⟩

/-- Model of Python str.strip with no argument: drop leading and trailing
whitespace. -/
def pyStrip (s : String) : String :=
  ⟨((s.data.dropWhile pyIsSpace).reverse.dropWhile pyIsSpace).reverse⟩

/-- Does the character list start with the given pattern? -/
def matchesAt : List Char → List Char → Bool
  | [], _ => true
  | _ :: _, [] => false
  | a :: as, b :: bs => a = b && matchesAt as bs

/-- Model of Python's substring containment `needle in hay`. -/
def containsChars (hay needle : List Char) : Bool :=
  matchesAt needle hay ||
    match hay with
    | [] => false
    | _ :: rest => containsChars rest needle

/-- Model of Python's `needle in hay` on strings. -/
def strContains (hay needle : String) : Bool :=
  containsChars hay.data needle.data

/-- Model of Python str.startswith. -/
def strStartsWith (s pat : String) : Bool :=
  matchesAt pat.data s.data

/-- Split a character list on a separator character, keeping empty pieces,
as Python's str.split(sep) does. -/
def splitCharAux (sep : Char) : List Char → List Char → List String
  | [], acc => [⟨acc.reverse⟩]
  | c :: rest, acc =>
      if c = sep then ⟨acc.reverse⟩ :: splitCharAux sep rest []
      else splitCharAux sep rest (c :: acc)

/-- Model of Python str.split(",") . -/
def splitComma (s : String) : List String :=
  splitCharAux ',' s.data []

/-- Model of Python str.partition(" "): the text before the first space and
the text after it (empty when there is no space). -/
def partitionSpaceAux : List Char → List Char → String × String
  | [], acc => (⟨acc.reverse⟩, "")
  | c :: rest, acc =>
      if c = ' ' then (⟨acc.reverse⟩, ⟨rest⟩)
      else partitionSpaceAux rest (c :: acc)

def partitionSpace (s : String) : String × String :=
  partitionSpaceAux s.data []

/-- Model of `token.split("@", maxsplit=1)[0]`: the text before the first
at-sign. -/
def upToAtAux : List Char → List Char → String
  | [], acc => ⟨acc.reverse⟩
  | c :: rest, acc =>
      if c = '@' then ⟨acc.reverse⟩
      else upToAtAux rest (c :: acc)

def upToAt (s : String) : String :=
  upToAtAux s.data []

/-- Join a list of strings with a separator, as Python's sep.join. -/
def joinSep (sep : String) : List String → String
  | [] => ""
  | [x] => x
  | x :: y :: rest => x ++ sep ++ joinSep sep (y :: rest)

/-- Value of a little-endian (least-significant-first) list of digit
characters. -/
def digitsValRev : List Char → Nat
  | [] => 0
  | c :: cs => (c.toNat - 48) + 10 * digitsValRev cs

/-- Value of a big-endian list of ASCII digit characters. -/
def digitsVal (cs : List Char) : Nat :=
  digitsValRev cs.reverse

/-- The ASCII character of a decimal digit. -/
def digitChar : Nat → Char
  | 0 => '0' | 1 => '1' | 2 => '2' | 3 => '3' | 4 => '4'
  | 5 => '5' | 6 => '6' | 7 => '7' | 8 => '8' | _ => '9'

theorem digitChar_toNat (d : Nat) (h : d < 10) : (digitChar d).toNat = 48 + d := by
  interval_cases d <;> decide

theorem digitChar_isDigit (d : Nat) : isAsciiDigit (digitChar d) = true := by
  unfold digitChar
  split <;> decide

/-- Decimal digits of a natural number, least significant first; the fuel
argument only bounds the recursion and any fuel above the digit count gives
the same result. -/
def natDigitsAux : Nat → Nat → List Char
  | 0, _ => []
  | fuel + 1, n =>
      if n < 10 then [digitChar n]
      else digitChar (n % 10) :: natDigitsAux fuel (n / 10)

/-- Decimal rendering of a natural number, modelling Python str(nat). -/
def natToString (n : Nat) : String :=
  ⟨(natDigitsAux (n + 1) n).reverse⟩

/-- Decimal rendering of an integer, modelling Python str(int). -/
def intToString (i : Int) : String :=
  if i < 0 then "-" ++ natToString i.natAbs else natToString i.natAbs

theorem digitsValRev_natDigitsAux :
    ∀ fuel n, n < fuel → digitsValRev (natDigitsAux fuel n) = n := by
  intro fuel
  induction fuel with
  | zero => intro n h; omega
  | succ f ih =>
      intro n h
      by_cases h10 : n < 10
      · simp [natDigitsAux, h10, digitsValRev, digitChar_toNat n h10]
      · have hdiv : n / 10 < f := by omega
        have hm : n % 10 < 10 := Nat.mod_lt _ (by omega)
        simp [natDigitsAux, h10, digitsValRev, ih _ hdiv, digitChar_toNat _ hm]
        omega

theorem digitsVal_natToString (n : Nat) :
    digitsVal (natToString n).data = n := by
  simp [natToString, digitsVal, List.reverse_reverse]
  exact digitsValRev_natDigitsAux (n + 1) n (Nat.lt_succ_self n)

/-- Model of Python str.isdigit on a character.  Besides the ASCII decimal
digits, Python's Unicode isdigit also accepts digit-class characters that are
not decimal digits; of these the embedding carries the superscript digits
U+00B9, U+00B2 and U+00B3, which is the fragment our inputs exercise. -/
def pyIsDigitChar (c : Char) : Bool :=
  isAsciiDigit c || c = '¹' || c = '²' || c = '³'

/-- Model of Python str.isdigit: nonempty and every character a digit. -/
def pyIsDigitStr (s : String) : Bool :=
  !s.data.isEmpty && s.data.all pyIsDigitChar

/-- Model of Python int(str): strip whitespace, optional sign, then a
nonempty run of decimal digits; anything else raises ValueError.  Non-decimal
digit-class characters such as U+00B2 are rejected by int() even though they
satisfy isdigit.  (Underscore separators accepted by CPython are not
modelled.) -/
def pyStrToInt (s : String) : Except PyErr Int :=
  let t := (pyStrip s).data
  let signBody : Int × List Char :=
    match t with
    | c :: rest =>
        if c = '-' then (-1, rest)
        else if c = '+' then (1, rest)
        else (1, c :: rest)
    | [] => (1, [])
  if !signBody.2.isEmpty && signBody.2.all isAsciiDigit then
    .ok (signBody.1 * (digitsVal signBody.2 : Int))
  else .error .valueError

theorem pyStrip_of_all_digits (s : String) (h : s.data.all isAsciiDigit = true) :
    pyStrip s = s := by
  have hnw : ∀ c ∈ s.data, pyIsSpace c = false := by
    intro c hc
    have hd := List.all_eq_true.mp h c hc
    simp only [isAsciiDigit, Bool.and_eq_true, decide_eq_true_eq] at hd
    cases hps : pyIsSpace c with
    | false => rfl
    | true =>
        exfalso
        simp only [pyIsSpace, Bool.or_eq_true, decide_eq_true_eq] at hps
        rcases hps with ((((h' | h') | h') | h') | h') | h' <;> (subst h'; revert hd; decide)
  cases s with
  | mk data =>
      simp only [pyStrip]
      have h1 : data.dropWhile pyIsSpace = data := by
        cases data with
        | nil => rfl
        | cons c cs =>
            rw [List.dropWhile_cons_of_neg]
            simp [hnw c (by simp)]
      rw [h1]
      have h2 : data.reverse.dropWhile pyIsSpace = data.reverse := by
        cases hrev : data.reverse with
        | nil => rfl
        | cons c cs =>
            rw [List.dropWhile_cons_of_neg]
            have hc : c ∈ data := by
              have : c ∈ data.reverse := by rw [hrev]; simp
              simpa using this
            simp [hnw c hc]
      rw [h2, List.reverse_reverse]

/-- A nonempty all-ASCII-digit string is accepted by the int() model. -/
theorem pyStrToInt_of_digits (s : String)
    (hne : s.data ≠ []) (h : s.data.all isAsciiDigit = true) :
    pyStrToInt s = .ok (digitsVal s.data : Int) := by
  have hs : pyStrip s = s := pyStrip_of_all_digits s h
  unfold pyStrToInt
  rw [hs]
  have hhead : ∀ rest, s.data = '-' :: rest → False := by
    intro rest hr
    have := List.all_eq_true.mp h '-' (by rw [hr]; simp)
    revert this; decide
  have hhead2 : ∀ rest, s.data = '+' :: rest → False := by
    intro rest hr
    have := List.all_eq_true.mp h '+' (by rw [hr]; simp)
    revert this; decide
  cases hd : s.data with
  | nil => exact absurd hd hne
  | cons c cs =>
      have hc : c ≠ '-' := fun hne2 => hhead cs (by rw [hd, hne2])
      have hc2 : c ≠ '+' := fun hne2 => hhead2 cs (by rw [hd, hne2])
      have hall : (c :: cs).all isAsciiDigit = true := by rw [← hd]; exact h
      simp only [hc, hc2, if_false, hall, List.isEmpty_cons, Bool.not_false,
        Bool.and_true, Bool.true_and, if_true, one_mul]

/-- UTF-8 encoding of one character as byte values. -/
def utf8EncodeChar (c : Char) : List Nat :=
  let n := c.toNat
  if n < 128 then [n]
  else if n < 2048 then [192 + n / 64, 128 + n % 64]
  else if n < 65536 then [224 + n / 4096, 128 + n / 64 % 64, 128 + n % 64]
  else [240 + n / 262144, 128 + n / 4096 % 64, 128 + n / 64 % 64, 128 + n % 64]

/-- UTF-8 encoding of a string, modelling Python str.encode("utf-8"). -/
def utf8Encode (s : String) : List Nat :=
  s.data.flatMap utf8EncodeChar

/-- Keep only the low 32 bits. -/
def w32 (x : Nat) : Nat := x % 4294967296

/-- Rotate a 32-bit word right by n bits. -/
def rotr32 (n x : Nat) : Nat := w32 ((x >>> n) ||| (x <<< (32 - n)))

/-- The 64 round constants of FIPS 180-4, written in decimal. -/
def sha256K : List Nat :=
  [1116352408, 1899447441, 3049323471, 3921009573, 961987163,
   1508970993, 2453635748, 2870763221, 3624381080, 310598401,
   607225278, 1426881987, 1925078388, 2162078206, 2614888103,
   3248222580, 3835390401, 4022224774, 264347078, 604807628,
   770255983, 1249150122, 1555081692, 1996064986, 2554220882,
   2821834349, 2952996808, 3210313671, 3336571891, 3584528711,
   113926993, 338241895, 666307205, 773529912, 1294757372,
   1396182291, 1695183700, 1986661051, 2177026350, 2456956037,
   2730485921, 2820302411, 3259730800, 3345764771, 3516065817,
   3600352804, 4094571909, 275423344, 430227734, 506948616,
   659060556, 883997877, 958139571, 1322822218, 1537002063,
   1747873779, 1955562222, 2024104815, 2227730452, 2361852424,
   2428436474, 2756734187, 3204031479, 3329325298]

/-- The initial hash state of FIPS 180-4, written in decimal. -/
def sha256InitState : List Nat :=
  [1779033703, 3144134277, 1013904242, 2773480762, 1359893119,
   2600822924, 528734635, 1541459225]

/-- Big-endian bytes of a value, fixed width. -/
def beBytes (width x : Nat) : List Nat :=
  (List.range width).map (fun i => x >>> (8 * (width - 1 - i)) % 256)

/-- Split a byte list into 64-byte blocks; the fuel bounds the recursion and
equals the list length at the call site, which always suffices. -/
def chunks64 : Nat → List Nat → List (List Nat)
  | _, [] => []
  | 0, _ :: _ => []
  | fuel + 1, l => l.take 64 :: chunks64 fuel (l.drop 64)

/-- Combine groups of four bytes into big-endian 32-bit words. -/
def bytesToWords : List Nat → List Nat
  | b0 :: b1 :: b2 :: b3 :: rest =>
      (((b0 * 256 + b1) * 256 + b2) * 256 + b3) :: bytesToWords rest
  | _ => []

def sigmaSmall0 (x : Nat) : Nat := rotr32 7 x ^^^ rotr32 18 x ^^^ (x >>> 3)
def sigmaSmall1 (x : Nat) : Nat := rotr32 17 x ^^^ rotr32 19 x ^^^ (x >>> 10)
def sigmaBig0 (x : Nat) : Nat := rotr32 2 x ^^^ rotr32 13 x ^^^ rotr32 22 x
def sigmaBig1 (x : Nat) : Nat := rotr32 6 x ^^^ rotr32 11 x ^^^ rotr32 25 x

/-- Extend the 16 block words to the 64-entry message schedule. -/
def sha256Schedule (ws : List Nat) : List Nat :=
  (List.range 48).foldl
    (fun acc _ =>
      let k := acc.length
      acc ++ [w32 (acc.getD (k - 16) 0 + sigmaSmall0 (acc.getD (k - 15) 0) +
        acc.getD (k - 7) 0 + sigmaSmall1 (acc.getD (k - 2) 0))])
    ws

/-- One SHA-256 compression round. -/
def sha256Round (st : List Nat) (kw : Nat × Nat) : List Nat :=
  match st with
  | [a, b, c, d, e, f, g, h] =>
      let ch := (e &&& f) ^^^ ((4294967295 - e) &&& g)
      let maj := (a &&& b) ^^^ (a &&& c) ^^^ (b &&& c)
      let t1 := w32 (h + sigmaBig1 e + ch + kw.1 + kw.2)
      let t2 := w32 (sigmaBig0 a + maj)
      [w32 (t1 + t2), a, b, c, w32 (d + t1), e, f, g]
  | other => other

/-- Process one 64-byte block. -/
def sha256Block (h : List Nat) (block : List Nat) : List Nat :=
  let ws := sha256Schedule (bytesToWords block)
  let st := (sha256K.zip ws).foldl sha256Round h
  (h.zip st).map (fun p => w32 (p.1 + p.2))

/-- SHA-256 digest (32 bytes) of a byte string. -/
def sha256Bytes (msg : List Nat) : List Nat :=
  let len := msg.length
  let padLen := (64 + 56 - (len + 1) % 64) % 64
  let padded := msg ++ [128] ++ List.replicate padLen 0 ++ beBytes 8 (8 * len)
  let final := (chunks64 padded.length padded).foldl sha256Block sha256InitState
  final.flatMap (beBytes 4)

def hexChar (n : Nat) : Char :=
  if n < 10 then digitChar n
  else if n = 10 then 'a' else if n = 11 then 'b' else if n = 12 then 'c'
  else if n = 13 then 'd' else if n = 14 then 'e' else 'f'

/-- Lowercase hex rendering of a byte list, modelling hashlib's hexdigest. -/
def bytesToHex (bs : List Nat) : String :=
  ⟨bs.flatMap (fun b => [hexChar (b / 16), hexChar (b % 16)])⟩

/-- SHA-256 hex digest of a string, modelling
hashlib.sha256(s.encode("utf-8")).hexdigest(). -/
def sha256Hex (s : String) : String :=
  bytesToHex (sha256Bytes (utf8Encode s))

/-- The Listing dataclass of src/models.py.  `price_eur` is Python's
`int | None`, the three optional text fields are `str | None`. -/
structure Listing where
  title : String
  url : String
  price_eur : Option Int := none
  city : Option String := none
  residence : Option String := none
  external_id : Option String := none
deriving DecidableEq, Repr

/-- The string `self.external_id or ""` of Listing.fingerprint: None becomes
the empty string, and `s or ""` is s itself for every string s. -/
def fingerprintExternalId (l : Listing) : String :=
  l.external_id.getD ""

/-- The string `str(p or "")` for an optional price: both None and 0 are
falsy, so both render as the empty string. -/
def priceStr (p : Option Int) : String :=
  match p with
  | none => ""
  | some n => if n = 0 then "" else intToString n

/-- The string `str(self.price_eur or "")` of Listing.fingerprint. -/
def fingerprintPrice (l : Listing) : String :=
  priceStr l.price_eur

/-- The pre-hash identity string of Listing.fingerprint:
`"|".join([external_id or "", url, title.strip().lower(), str(price_eur or "")])`. -/
def fingerprintBase (l : Listing) : String :=
  fingerprintExternalId l ++ "|" ++ l.url ++ "|" ++
    pyLower (pyStrip l.title) ++ "|" ++ fingerprintPrice l

/-- Listing.fingerprint of src/models.py: the SHA-256 hex digest of the
identity string. -/
def fingerprint (l : Listing) : String :=
  sha256Hex (fingerprintBase l)

/-- One row of the seen_listings table of src/state_store.py. -/
structure SeenRow where
  fingerprint : String
  title : String
  url : String
  first_seen_at : String
deriving DecidableEq, Repr

/-- The persistent state of StateStore: the seen_listings table (in insertion
order; fingerprint is the primary key) and the meta key-value table. -/
structure StoreState where
  seen : List SeenRow
  meta : List (String × String)
deriving DecidableEq, Repr

def emptyStore : StoreState := { seen := [], meta := [] }

/-- SELECT value FROM meta WHERE key = ?. -/
def getMetaList : List (String × String) → String → Option String
  | [], _ => none
  | (k, v) :: rest, key => if k = key then some v else getMetaList rest key

def StoreState.getMeta (st : StoreState) (key : String) : Option String :=
  getMetaList st.meta key

/-- INSERT ... ON CONFLICT(key) DO UPDATE: upsert into the meta table. -/
def setMetaList : List (String × String) → String → String → List (String × String)
  | [], key, v => [(key, v)]
  | (k, v') :: rest, key, v =>
      if k = key then (key, v) :: rest else (k, v') :: setMetaList rest key v

/-- StateStore.set_meta of src/state_store.py. -/
def StoreState.setMeta (st : StoreState) (key v : String) : StoreState :=
  { st with meta := setMetaList st.meta key v }

/-- SELECT 1 FROM seen_listings WHERE fingerprint = ?. -/
def seenHas (rows : List SeenRow) (fp : String) : Bool :=
  rows.any (fun r => r.fingerprint = fp)

/-- The per-listing loop of StateStore.filter_new: returns the final table and
the listings that were new.  `now` is the timestamp string computed once at
the start of the call. -/
def filterNewAux (now : String) : List Listing → List SeenRow → List SeenRow × List Listing
  | [], rows => (rows, [])
  | l :: rest, rows =>
      if seenHas rows (fingerprint l) then filterNewAux now rest rows
      else
        let step := filterNewAux now rest
          (rows ++ [⟨fingerprint l, l.title, l.url, now⟩])
        (step.1, l :: step.2)

/-- StateStore.filter_new of src/state_store.py: filter the input to unseen
listings, inserting each returned listing, and unconditionally upsert the
last_poll_at meta entry. -/
def filter_new (st : StoreState) (now : String) (listings : List Listing) :
    StoreState × List Listing :=
  let step := filterNewAux now listings st.seen
  ({ seen := step.1, meta := setMetaList st.meta "last_poll_at" now }, step.2)

/-- StateStore.reset_failure_count. -/
def reset_failure_count (st : StoreState) : StoreState :=
  st.setMeta "consecutive_failures" "0"

/-- StateStore.register_failure.  The stored counter is always one of this
module's own writes, so the int() call is modelled on the success path; a
tampered non-numeric value would raise in Python and yields 0 here. -/
def register_failure (st : StoreState) : StoreState × Int :=
  let current : Int :=
    match st.getMeta "consecutive_failures" with
    | none => 0
    | some s => if s = "" then 0 else (pyStrToInt s).toOption.getD 0
  (st.setMeta "consecutive_failures" (intToString (current + 1)), current + 1)

/-- Model of the external datetime collaborator: instants are integer seconds;
isoformat renders an instant to the string persisted in the meta table. -/
def isoformat (t : Int) : String :=
  intToString t

/-- Model of datetime.fromisoformat on strings this program itself wrote; a
string that isoformat never produced decodes to 0 rather than raising. -/
def fromisoformat (s : String) : Int :=
  (pyStrToInt s).toOption.getD 0

/-- StateStore.should_send_heartbeat of src/state_store.py, with the current
instant passed explicitly.  timedelta(hours=h) is h*3600 seconds. -/
def should_send_heartbeat (st : StoreState) (now : Int) (intervalHours : Int) :
    StoreState × Bool :=
  match st.getMeta "last_heartbeat_at" with
  | none => (st.setMeta "last_heartbeat_at" (isoformat now), false)
  | some raw =>
      if raw = "" then (st.setMeta "last_heartbeat_at" (isoformat now), false)
      else
        let last := fromisoformat raw
        if now - last ≥ intervalHours * 3600 then
          (st.setMeta "last_heartbeat_at" (isoformat now), true)
        else (st, false)

/-- StateStore.should_send_error_alert of src/state_store.py: same shape as
the heartbeat check but true on the first-ever call.
timedelta(minutes=m) is m*60 seconds. -/
def should_send_error_alert (st : StoreState) (now : Int) (cooldownMinutes : Int) :
    StoreState × Bool :=
  match st.getMeta "last_error_alert_at" with
  | none => (st.setMeta "last_error_alert_at" (isoformat now), true)
  | some raw =>
      if raw = "" then (st.setMeta "last_error_alert_at" (isoformat now), true)
      else
        let last := fromisoformat raw
        if now - last ≥ cooldownMinutes * 60 then
          (st.setMeta "last_error_alert_at" (isoformat now), true)
        else (st, false)

theorem natDigitsAux_ne_nil (fuel n : Nat) (h : 0 < fuel) :
    natDigitsAux fuel n ≠ [] := by
  cases fuel with
  | zero => omega
  | succ f =>
      unfold natDigitsAux
      by_cases h10 : n < 10 <;> simp [h10]

theorem natDigitsAux_all_digits :
    ∀ fuel n, (natDigitsAux fuel n).all isAsciiDigit = true := by
  intro fuel
  induction fuel with
  | zero => intro n; rfl
  | succ f ih =>
      intro n
      unfold natDigitsAux
      by_cases h10 : n < 10 <;> simp [h10, digitChar_isDigit, ih]

theorem natToString_ne_empty (n : Nat) : (natToString n).data ≠ [] := by
  simp only [natToString]
  intro h
  exact natDigitsAux_ne_nil (n + 1) n (Nat.succ_pos n) (by
    have := congrArg List.reverse h
    simpa using this)

theorem natToString_all_digits (n : Nat) :
    (natToString n).data.all isAsciiDigit = true := by
  simp only [natToString]
  rw [List.all_reverse]
  exact natDigitsAux_all_digits (n + 1) n

theorem pyStrToInt_natToString (n : Nat) :
    pyStrToInt (natToString n) = .ok (n : Int) := by
  rw [pyStrToInt_of_digits (natToString n) (natToString_ne_empty n)
    (natToString_all_digits n), digitsVal_natToString]

/-- Round trip of the integer rendering through the int() model. -/
theorem pyStrToInt_intToString (t : Int) : pyStrToInt (intToString t) = .ok t := by
  unfold intToString
  by_cases hneg : t < 0
  · simp only [hneg, if_true]
    have hdata : ("-" ++ natToString t.natAbs).data = '-' :: (natToString t.natAbs).data := by
      simp [String.data_append]
    unfold pyStrToInt
    have hstrip : pyStrip ("-" ++ natToString t.natAbs) = "-" ++ natToString t.natAbs := by
      unfold pyStrip
      rw [hdata]
      have h1 : ('-' :: (natToString t.natAbs).data).dropWhile pyIsSpace =
          '-' :: (natToString t.natAbs).data := by
        rw [List.dropWhile_cons_of_neg]; decide
      rw [h1]
      have h2 : ('-' :: (natToString t.natAbs).data).reverse.dropWhile pyIsSpace =
          ('-' :: (natToString t.natAbs).data).reverse := by
        cases hrev : ('-' :: (natToString t.natAbs).data).reverse with
        | nil => rfl
        | cons c cs =>
            rw [List.dropWhile_cons_of_neg]
            have hc : c ∈ '-' :: (natToString t.natAbs).data := by
              have hmem : c ∈ ('-' :: (natToString t.natAbs).data).reverse := by
                rw [hrev]; simp
              exact List.mem_reverse.mp hmem
            rcases List.mem_cons.mp hc with hc1 | hc2
            · subst hc1; decide
            · have := List.all_eq_true.mp (natToString_all_digits t.natAbs) c hc2
              simp only [isAsciiDigit, Bool.and_eq_true, decide_eq_true_eq] at this
              cases hps : pyIsSpace c with
              | false => simp
              | true =>
                  exfalso
                  simp only [pyIsSpace, Bool.or_eq_true, decide_eq_true_eq] at hps
                  rcases hps with ((((h' | h') | h') | h') | h') | h' <;>
                    (subst h'; revert this; decide)
      rw [h2, List.reverse_reverse]
      rfl
    rw [hstrip]
    simp only [hdata]
    have hne : (natToString t.natAbs).data.isEmpty = false := by
      cases hd : (natToString t.natAbs).data with
      | nil => exact absurd hd (natToString_ne_empty t.natAbs)
      | cons c cs => rfl
    simp only [if_pos rfl, hne, natToString_all_digits t.natAbs, Bool.not_false,
      Bool.and_true, Bool.true_and, if_true, digitsVal_natToString]
    congr 1
    omega
  · simp only [hneg, if_false]
    rw [pyStrToInt_natToString]
    congr 1
    omega

/-- Round trip of the modelled timestamp codec. -/
theorem fromisoformat_isoformat (t : Int) : fromisoformat (isoformat t) = t := by
  unfold fromisoformat isoformat
  rw [pyStrToInt_intToString]
  rfl

/-- The timestamp codec is injective: equal renderings decode equal. -/
theorem isoformat_injective (a b : Int) (h : isoformat a = isoformat b) : a = b := by
  have := congrArg fromisoformat h
  rwa [fromisoformat_isoformat, fromisoformat_isoformat] at this

/-- A nonzero integer never renders to the empty string. -/
theorem intToString_ne_empty (i : Int) (h : i ≠ 0) : intToString i ≠ "" := by
  intro he
  have he' : isoformat i = "" := he
  have := congrArg fromisoformat he'
  rw [fromisoformat_isoformat] at this
  simp [fromisoformat, pyStrToInt, pyStrip, Except.toOption] at this
  exact h this

/-- Python float values: finite values carried exactly as mant * 10 ^ exp10
(double rounding is not modelled; it does not affect any claim), the
infinities, and NaN. -/
inductive PyFloat
  | finite (mant exp10 : Int)
  | inf
  | neginf
  | nan
deriving DecidableEq, Repr

/-- JSON values as produced by json.loads: objects keep key order, numbers
distinguish int from float exactly as Python does. -/
inductive Json
  | null
  | bool (b : Bool)
  | str (s : String)
  | int (n : Int)
  | float (f : PyFloat)
  | arr (xs : List Json)
  | obj (kvs : List (String × Json))

/-- Python truthiness of a decoded JSON value. -/
def pyTruthy : Json → Bool
  | .null => false
  | .bool b => b
  | .str s => decide (s ≠ "")
  | .int n => decide (n ≠ 0)
  | .float f =>
      match f with
      | .finite mant _ => decide (mant ≠ 0)
      | _ => true
  | .arr xs => !xs.isEmpty
  | .obj kvs => !kvs.isEmpty

/-- First value stored under a key in an object. -/
def jsonLookup : List (String × Json) → String → Option Json
  | [], _ => none
  | (k, v) :: rest, key => if k = key then some v else jsonLookup rest key

/-- Model of Python dict.get on a decoded JSON object: a missing key and a
key holding JSON null both come back as Python None. -/
def jsonGetPy (kvs : List (String × Json)) (key : String) : Option Json :=
  match jsonLookup kvs key with
  | some .null => none
  | other => other

/-- Leading run of ASCII digits of a character list, and the remainder. -/
def takeDigits : List Char → List Char × List Char
  | [] => ([], [])
  | c :: rest =>
      if isAsciiDigit c then
        let step := takeDigits rest
        (c :: step.1, step.2)
      else ([], c :: rest)

/-- Parse the body (sign removed, lowercased) of a Python float literal:
digits, optional fraction, optional exponent. -/
def parseFloatBody (sign : Int) (cs : List Char) : Option PyFloat :=
  let ipart := takeDigits cs
  let dotted : Bool × List Char :=
    match ipart.2 with
    | c :: rest => if c = '.' then (true, rest) else (false, ipart.2)
    | [] => (false, [])
  let fpart := if dotted.1 then takeDigits dotted.2 else ([], ipart.2)
  let mantDigits := ipart.1 ++ fpart.1
  if mantDigits.isEmpty then none
  else
    let mant : Int := sign * (digitsVal mantDigits : Int)
    let baseExp : Int := -(fpart.1.length : Int)
    match fpart.2 with
    | [] => some (.finite mant baseExp)
    | e :: rest =>
        if e = 'e' then
          let esign : Int × List Char :=
            match rest with
            | c :: r2 =>
                if c = '-' then (-1, r2)
                else if c = '+' then (1, r2)
                else (1, rest)
            | [] => (1, [])
          if esign.2.isEmpty || !esign.2.all isAsciiDigit then none
          else some (.finite mant (baseExp + esign.1 * (digitsVal esign.2 : Int)))
        else none

/-- Model of Python float(str): strip, optional sign, then the special forms
inf / infinity / nan (case-insensitive) or a decimal literal; anything else
raises ValueError (None here).  Literals whose magnitude overflows a double
to infinity are not modelled; the claims use the literal special forms. -/
def pyFloatOfString (s : String) : Option PyFloat :=
  let t := (pyLower (pyStrip s)).data
  let signBody : Int × List Char :=
    match t with
    | c :: rest =>
        if c = '-' then (-1, rest)
        else if c = '+' then (1, rest)
        else (1, c :: rest)
    | [] => (1, [])
  if signBody.2 = "inf".data || signBody.2 = "infinity".data then
    some (if signBody.1 = -1 then .neginf else .inf)
  else if signBody.2 = "nan".data then some .nan
  else parseFloatBody signBody.1 signBody.2

/-- Truncation toward zero of mant / 10 ^ k, the behaviour of Python
int(float) on our exact values. -/
def truncDivPow10 (mant : Int) (k : Nat) : Int :=
  if 0 ≤ mant then ((mant.toNat / 10 ^ k : Nat) : Int)
  else -(((-mant).toNat / 10 ^ k : Nat) : Int)

/-- The integer value int() produces from a finite float mant * 10 ^ e. -/
def pyFloatTrunc (mant exp10 : Int) : Int :=
  if 0 ≤ exp10 then mant * (10 : Int) ^ exp10.toNat
  else truncDivPow10 mant (-exp10).toNat

/-- Model of Python int(x) on a float value: truncate a finite value; an
infinity raises OverflowError; NaN raises ValueError. -/
def pyIntOfFloat : PyFloat → Except PyErr Int
  | .finite mant exp10 => .ok (pyFloatTrunc mant exp10)
  | .inf => .error .overflowError
  | .neginf => .error .overflowError
  | .nan => .error .valueError

/-- Magnitude from which float(int) raises OverflowError in Python (2^1024). -/
def hugeFloatBound : Nat := 2 ^ 1024

/-- The price coercion of _parse_ld_json (src/crous_client.py lines 91-97):
`if isinstance(raw_price, (str, int, float)): try: price = int(float(raw_price))
except ValueError: price = None`.  Only ValueError is caught, so an infinite
float value (or an int too large for a double) escapes as OverflowError.
Python bool is a subclass of int, so booleans pass the isinstance test. -/
def coercePrice (raw : Option Json) : Except PyErr (Option Int) :=
  match raw with
  | none => .ok none
  | some j =>
      match j with
      | .str s =>
          match pyFloatOfString s with
          | none => .ok none
          | some f =>
              match pyIntOfFloat f with
              | .ok n => .ok (some n)
              | .error .valueError => .ok none
              | .error e => .error e
      | .int n =>
          if hugeFloatBound ≤ n.natAbs then .error .overflowError
          else .ok (some n)
      | .float f =>
          match pyIntOfFloat f with
          | .ok n => .ok (some n)
          | .error .valueError => .ok none
          | .error e => .error e
      | .bool b => .ok (some (if b then 1 else 0))
      | _ => .ok none

/-- _clean_optional_text of src/crous_client.py.  The argument is what
dict.get returned: Python None (missing key or JSON null) maps to None. -/
def cleanOptionalText (v : Option Json) : Option String :=
  match v with
  | none => none
  | some (.obj kvs) =>
      match jsonGetPy kvs "name" with
      | some (.str s) => if pyStrip s = "" then none else some (pyStrip s)
      | _ => none
  | some (.str s) => if pyStrip s = "" then none else some (pyStrip s)
  | some _ => none

/-- The nesting keys _iter_nodes follows into an object. -/
def nestKeys : List String := ["@graph", "itemListElement", "mainEntity", "items"]

mutual
/-- Structural size of a JSON value, used as recursion fuel. -/
def jsonSize : Json → Nat
  | .null => 1
  | .bool _ => 1
  | .str _ => 1
  | .int _ => 1
  | .float _ => 1
  | .arr xs => 1 + jsonSizeList xs
  | .obj kvs => 1 + jsonSizeKvs kvs
def jsonSizeList : List Json → Nat
  | [] => 0
  | j :: rest => jsonSize j + jsonSizeList rest
def jsonSizeKvs : List (String × Json) → Nat
  | [] => 0
  | kv :: rest => jsonSize kv.2 + jsonSizeKvs rest
end

/-- The recursion of _iter_nodes (src/crous_client.py): a list yields its
items' nodes, a dict yields itself and the nodes under the known nesting
keys.  The fuel only bounds the recursion; the wrapper passes jsonSize,
which exceeds the nesting depth of any value. -/
def iterNodesAux : Nat → Json → List Json
  | 0, _ => []
  | fuel + 1, j =>
      match j with
      | .arr xs => xs.flatMap (iterNodesAux fuel)
      | .obj kvs =>
          .obj kvs :: nestKeys.flatMap (fun key =>
            match jsonGetPy kvs key with
            | some nested => iterNodesAux fuel nested
            | none => [])
      | _ => []

def iterNodes (j : Json) : List Json :=
  iterNodesAux (jsonSize j) j

/-- Split a character list at the first occurrence of a pattern. -/
def splitOnceStr : List Char → List Char → Option (List Char × List Char)
  | cs, pat =>
      if matchesAt pat cs then some ([], cs.drop pat.length)
      else
        match cs with
        | [] => none
        | c :: rest => (splitOnceStr rest pat).map (fun p => (c :: p.1, p.2))

/-- Scheme and host of an absolute URL (through the authority part). -/
def hostRoot (base : String) : String :=
  match splitOnceStr base.data "://".data with
  | some (pre, rest) => (⟨pre⟩ : String) ++ "://" ++ (⟨rest.takeWhile (· ≠ '/')⟩ : String)
  | none => ""

/-- The base URL up to and including its last slash. -/
def baseDir (base : String) : String :=
  ⟨(base.data.reverse.dropWhile (· ≠ '/')).reverse⟩

/-- Model of the external urllib.parse.urljoin collaborator, simplified to
the URL shapes these pages use: empty references keep the base, absolute
URLs win, root-relative paths attach to the base's scheme and host, and
other relative paths replace the base's last segment. -/
def urljoin (base rel : String) : String :=
  if rel = "" then base
  else if strContains rel "://" then rel
  else if strStartsWith rel "/" then hostRoot base ++ rel
  else baseDir base ++ rel

/-- One node of the _parse_ld_json loop (src/crous_client.py lines 77-108):
non-dicts and unknown types are skipped, a blank title skips the node, and
the title / url / price coercions raise exactly where Python would. -/
def nodeToListing (base : String) (node : Json) : Except PyErr (Option Listing) :=
  match node with
  | .obj kvs =>
      let typeOk : Bool :=
        match jsonGetPy kvs "@type" with
        | some (.str s) =>
            s = "Offer" || s = "Product" || s = "Residence" || s = "Apartment"
        | _ => false
      if !typeOk then .ok none
      else do
        let title ←
          (match jsonGetPy kvs "name" with
           | none => Except.ok ""
           | some v =>
               if pyTruthy v then
                 match v with
                 | .str s => Except.ok (pyStrip s)
                 | _ => Except.error PyErr.attributeError
               else Except.ok "")
        if title = "" then return none
        let listingUrl ←
          (match jsonGetPy kvs "url" with
           | none => Except.ok base
           | some v =>
               if pyTruthy v then
                 match v with
                 | .str s => Except.ok (urljoin base s)
                 | _ => Except.error PyErr.typeError
               else Except.ok base)
        let offersKvs : List (String × Json) :=
          match jsonGetPy kvs "offers" with
          | some (.obj okvs) => okvs
          | _ => []
        let rawPrice : Option Json :=
          if offersKvs.isEmpty then none else jsonGetPy offersKvs "price"
        let price ← coercePrice rawPrice
        return some
          { title := title
            url := listingUrl
            price_eur := price
            city := cleanOptionalText (jsonGetPy kvs "addressLocality")
            residence := cleanOptionalText (jsonGetPy kvs "brand")
            external_id := cleanOptionalText (jsonGetPy kvs "identifier") }
  | _ => .ok none

/-- _parse_ld_json of src/crous_client.py.  A script entry is the decoded
JSON of one ld+json block, or none when the payload was empty or malformed
(those are skipped silently). -/
def parseLdJson (base : String) (scripts : List (Option Json)) :
    Except PyErr (List Listing) :=
  scripts.foldlM
    (fun acc sc =>
      match sc with
      | none => pure acc
      | some data =>
          (iterNodes data).foldlM
            (fun acc2 node => do
              match ← nodeToListing base node with
              | none => pure acc2
              | some l => pure (acc2 ++ [l]))
            acc)
    []

/-- A card-like container as BeautifulSoup exposes it: its flattened text,
its attributes, and the text of its first h2/h3/h4 heading if any. -/
structure HtmlContainer where
  text : String
  attrs : List (String × String)
  headingText : Option String
deriving DecidableEq, Repr

/-- An anchor element with an href attribute, its own flattened text, and
its closest article/li/div ancestor. -/
structure HtmlAnchor where
  href : String
  text : String
  container : Option HtmlContainer
deriving DecidableEq, Repr

/-- A parsed HTML document: the page's flattened text, the decoded ld+json
script payloads in document order, and the anchors in document order. -/
structure HtmlDoc where
  pageText : String
  scripts : List (Option Json)
  anchors : List HtmlAnchor

/-- Match of the regex (\d{2,4})\s*€ anchored at the start: exactly k digits
then optional whitespace then the euro sign. -/
def priceAt (cs : List Char) (k : Nat) : Option Nat :=
  let ds := cs.take k
  if ds.length = k && ds.all isAsciiDigit then
    match (cs.drop k).dropWhile pyIsSpace with
    | '€' :: _ => some (digitsVal ds)
    | _ => none
  else none

/-- Greedy attempt at one position: four digits first, then three, then two. -/
def priceMatchHere (cs : List Char) : Option Nat :=
  match priceAt cs 4 with
  | some v => some v
  | none =>
      match priceAt cs 3 with
      | some v => some v
      | none => priceAt cs 2

/-- Leftmost match of PRICE_REGEX, as re.search finds it. -/
def searchPrice : List Char → Option Nat
  | [] => none
  | c :: rest =>
      match priceMatchHere (c :: rest) with
      | some v => some v
      | none => searchPrice rest

/-- _extract_price of src/crous_client.py. -/
def extract_price (text : String) : Option Int :=
  (searchPrice text.data).map (fun n => (n : Int))

/-- Leftmost run of at least three digits, as re.search of (\d{3,}) finds
it: the first position opening such a run, taken maximally. -/
def searchDigitRun : List Char → Option String
  | [] => none
  | c :: rest =>
      let run := (c :: rest).takeWhile isAsciiDigit
      if 3 ≤ run.length then some ⟨run⟩ else searchDigitRun rest

/-- The attribute scan of _extract_external_id: the first of the names whose
value is a nonblank string, stripped. -/
def attrsLookupFirst (attrs : List (String × String)) : List String → Option String
  | [] => none
  | name :: rest =>
      match getMetaList attrs name with
      | some v => if pyStrip v = "" then attrsLookupFirst attrs rest else some (pyStrip v)
      | none => attrsLookupFirst attrs rest

/-- _extract_external_id of src/crous_client.py. -/
def extractExternalId (container : Option HtmlContainer) (fallbackUrl : String) :
    Option String :=
  match container with
  | none => none
  | some cont =>
      match attrsLookupFirst cont.attrs ["data-id", "id", "data-logement-id"] with
      | some v => some v
      | none => searchDigitRun fallbackUrl.data

/-- One anchor of the _parse_card_like_elements loop. -/
def cardToListing (base : String) (a : HtmlAnchor) : Option Listing :=
  if a.href = "" then none
  else if !strContains a.href "/logement/" && !strContains (pyLower a.href) "residence" then
    none
  else
    let listingUrl := urljoin base a.href
    let textBlock :=
      match a.container with
      | some c => c.text
      | none => a.text
    let title :=
      if a.text = "" then
        match a.container with
        | some c => c.headingText.getD ""
        | none => ""
      else a.text
    if title = "" then none
    else
      some
        { title := title
          url := listingUrl
          price_eur := extract_price textBlock
          external_id := extractExternalId a.container listingUrl }

/-- _parse_card_like_elements of src/crous_client.py. -/
def parseCardLikeElements (base : String) (anchors : List HtmlAnchor) : List Listing :=
  anchors.filterMap (cardToListing base)

/-- _unique_by_fingerprint of src/crous_client.py: keep the first listing of
each fingerprint, in order. -/
def uniqueByFingerprintAux : List Listing → List String → List Listing
  | [], _ => []
  | l :: rest, seen =>
      if seen.contains (fingerprint l) then uniqueByFingerprintAux rest seen
      else l :: uniqueByFingerprintAux rest (fingerprint l :: seen)

def uniqueByFingerprint (items : List Listing) : List Listing :=
  uniqueByFingerprintAux items []

/-- parse_listings of src/crous_client.py: the no-results phrase returns an
empty list at once; otherwise the ld+json strategy is consulted and, only
when it yields nothing, the card-like strategy. -/
def parse_listings (doc : HtmlDoc) (base : String) : Except PyErr (List Listing) := do
  if strContains (pyLower doc.pageText) "aucun logement trouvé" then
    return []
  let jsonListings ← parseLdJson base doc.scripts
  if !jsonListings.isEmpty then
    return uniqueByFingerprint jsonListings
  return uniqueByFingerprint (parseCardLikeElements base doc.anchors)

/-- The Settings fields of src/config.py that the monitor logic reads. -/
structure Settings where
  telegram_chat_ids : List String
  poll_interval_seconds : Int
  poll_jitter_seconds : Int
  filter_max_price_eur : Option Int
  filter_include_keywords : List String
  heartbeat_enabled : Bool
  heartbeat_interval_hours : Int
  error_alert_threshold : Int
  error_alert_cooldown_minutes : Int
deriving Repr

/-- Keep the first occurrence of each string, in order: the effect of
`OrderedDict.fromkeys(...)`.  The fuel equals the input length, which always
suffices because each step consumes at least one element. -/
def dedupFirstAux : Nat → List String → List String
  | 0, _ => []
  | _, [] => []
  | fuel + 1, x :: xs => x :: dedupFirstAux fuel (xs.filter (fun y => y ≠ x))

def dedupFirst (l : List String) : List String :=
  dedupFirstAux l.length l

/-- The keyword override parse shared by _get_effective_filters and the
/setkeywords handler: split on commas, keep nonblank entries stripped and
lowercased. -/
def parseKeywordList (s : String) : List String :=
  (splitComma s).filterMap
    (fun item => if pyStrip item = "" then none else some (pyLower (pyStrip item)))

/-- MonitorService._get_effective_filters of src/monitor.py: static settings
overridden by nonempty meta entries; a non-numeric max-price override makes
int() raise. -/
def get_effective_filters (settings : Settings) (st : StoreState) :
    Except PyErr (Option Int × List String) := do
  let maxPrice : Option Int ←
    match st.getMeta "filter_max_price_override" with
    | some s =>
        if s = "" then pure settings.filter_max_price_eur
        else
          match pyStrToInt s with
          | .ok n => pure (some n)
          | .error e => throw e
    | none => pure settings.filter_max_price_eur
  let keywords : List String :=
    match st.getMeta "filter_keywords_override" with
    | some s => if s = "" then settings.filter_include_keywords
                else dedupFirst (parseKeywordList s)
    | none => settings.filter_include_keywords
  return (maxPrice, keywords)

/-- The price test on src/monitor.py line 169:
`max_price is not None and listing.price_eur is not None and
listing.price_eur > max_price`. -/
def priceExceeds (maxPrice : Option Int) (price : Option Int) : Bool :=
  match maxPrice, price with
  | some m, some p => decide (m < p)
  | _, _ => false

/-- The haystack of the keyword rule:
`" ".join([title, city or "", residence or "", url]).lower()`. -/
def keywordHaystack (l : Listing) : String :=
  pyLower (l.title ++ " " ++ l.city.getD "" ++ " " ++ l.residence.getD "" ++ " " ++ l.url)

/-- The keyword test of _apply_filters: with a nonempty keyword set the
haystack must contain at least one keyword. -/
def keywordPasses (keywords : List String) (l : Listing) : Bool :=
  keywords.isEmpty || keywords.any (fun k => strContains (keywordHaystack l) k)

/-- The per-listing loop of MonitorService._apply_filters (src/monitor.py
lines 164-186), with the effective filters passed in. -/
def apply_filters (maxPrice : Option Int) (keywords : List String) :
    List Listing → List Listing
  | [] => []
  | l :: rest =>
      if priceExceeds maxPrice l.price_eur then apply_filters maxPrice keywords rest
      else if !keywords.isEmpty &&
          !keywords.any (fun k => strContains (keywordHaystack l) k) then
        apply_filters maxPrice keywords rest
      else l :: apply_filters maxPrice keywords rest

/-- MonitorService._format_filter_status. -/
def format_filter_status (maxPrice : Option Int) (keywords : List String) : String :=
  let priceText := match maxPrice with
    | some m => "<= " ++ intToString m ++ " €"
    | none => "none"
  let keywordText := if keywords.isEmpty then "none" else joinSep ", " keywords
  "✅ Filters updated\n\n" ++ "Max price: " ++ priceText ++ "\nKeywords: " ++ keywordText

def usageSetMaxPrice : String := "Usage: /setmaxprice <amount_in_eur>"
def usageSetKeywords : String := "Usage: /setkeywords keyword1,keyword2"

def helpText : String :=
  "Commands:\n/showfilters\n/setmaxprice <eur>\n/clearmaxprice\n" ++
    "/setkeywords kw1,kw2\n/clearkeywords"

def unknownCommandText : String :=
  "Unknown command. Send /help for available commands."

/-- The shared tail of every mutating command branch: persist the override
unless this is a dry run, then reply with the resulting effective-filter
summary; a raise inside the filter resolution keeps the write. -/
def overrideAndReply (settings : Settings) (st : StoreState) (key v : String)
    (dry : Bool) : StoreState × Except PyErr (List String) :=
  let st' := if dry then st else st.setMeta key v
  match get_effective_filters settings st' with
  | .ok f => (st', .ok (if dry then [] else [format_filter_status f.1 f.2]))
  | .error e => (st', .error e)

/-- MonitorService._handle_telegram_command of src/monitor.py.  The result
is the state after any override write together with the replies delivered
(none in dry-run mode), or the Python exception if the status reply's
filter resolution raised; a write performed before the raise is kept. -/
def handle_telegram_command (settings : Settings) (st : StoreState)
    (text chatId : String) (dry : Bool) : StoreState × Except PyErr (List String) :=
  let parts := partitionSpace text
  let command := pyLower (upToAt parts.1)
  let arg := pyStrip parts.2
  let reply : String → List String := fun t => if dry then [] else [t]
  if command = "/setmaxprice" then
    if !pyIsDigitStr arg then (st, .ok (reply usageSetMaxPrice))
    else overrideAndReply settings st "filter_max_price_override" arg dry
  else if command = "/clearmaxprice" then
    overrideAndReply settings st "filter_max_price_override" "" dry
  else if command = "/setkeywords" then
    if arg = "" then (st, .ok (reply usageSetKeywords))
    else
      let keywords := parseKeywordList arg
      if keywords.isEmpty then (st, .ok (reply usageSetKeywords))
      else
        overrideAndReply settings st "filter_keywords_override"
          (joinSep "," (dedupFirst keywords)) dry
  else if command = "/clearkeywords" then
    overrideAndReply settings st "filter_keywords_override" "" dry
  else if command = "/showfilters" then
    match get_effective_filters settings st with
    | .ok f => (st, .ok (reply (format_filter_status f.1 f.2)))
    | .error e => (st, .error e)
  else if command = "/help" then (st, .ok (reply helpText))
  else (st, .ok (reply unknownCommandText))

/-- One Telegram update as the inbound-command loop reads it: the numeric
update_id when present, and the optional message / edited_message payloads.
The chat id field carries `str(chat.get("id", ""))` already rendered. -/
structure TgChat where
  id : String
deriving DecidableEq, Repr

structure TgMessage where
  chat : Option TgChat
  text : String
deriving DecidableEq, Repr

structure TgUpdate where
  update_id : Option Int
  message : Option TgMessage
  edited_message : Option TgMessage
deriving DecidableEq, Repr

/-- The per-update loop of MonitorService.sync_telegram_commands: threads
the store, the processed count and the running max update id; a raise inside
the command handler aborts the loop, keeping the writes made so far. -/
def syncLoop (settings : Settings) (dry : Bool) :
    List TgUpdate → StoreState → Nat → Int → StoreState × Except PyErr (Nat × Int)
  | [], st, processed, maxId => (st, .ok (processed, maxId))
  | u :: rest, st, processed, maxId =>
      let maxId' := match u.update_id with
        | some i => max maxId i
        | none => maxId
      match u.message <|> u.edited_message with
      | none => syncLoop settings dry rest st processed maxId'
      | some msg =>
          let chatId := match msg.chat with
            | some c => c.id
            | none => ""
          if !settings.telegram_chat_ids.contains chatId then
            syncLoop settings dry rest st processed maxId'
          else
            let text := pyStrip msg.text
            if !strStartsWith text "/" then
              syncLoop settings dry rest st processed maxId'
            else
              match handle_telegram_command settings st text chatId dry with
              | (st', .error e) => (st', .error e)
              | (st', .ok _) => syncLoop settings dry rest st' (processed + 1) maxId'

/-- MonitorService.sync_telegram_commands of src/monitor.py (lines 59-95),
with the fetched update batch passed in.  After the loop, the persisted
offset is rewritten to max_update_id + 1 whenever max_update_id ≥ offset
and this is not a dry run. -/
def sync_telegram_commands (settings : Settings) (st : StoreState)
    (updates : List TgUpdate) (dry : Bool) : StoreState × Except PyErr Nat :=
  let rawOffset := st.getMeta "telegram_update_offset"
  let offsetParse : Except PyErr Int :=
    match rawOffset with
    | none => .ok 0
    | some s => if s = "" then .ok 0 else pyStrToInt s
  match offsetParse with
  | .error e => (st, .error e)
  | .ok offset =>
      if updates.isEmpty then (st, .ok 0)
      else
        match syncLoop settings dry updates st 0 (offset - 1) with
        | (st', .error e) => (st', .error e)
        | (st', .ok (processed, maxId)) =>
            if offset ≤ maxId && !dry then
              (st'.setMeta "telegram_update_offset" (intToString (maxId + 1)),
                .ok processed)
            else (st', .ok processed)

/-- The heartbeat message of src/telegram_notifier.py. -/
def heartbeatMessage : String :=
  "💓 CROUS monitor heartbeat: workflow is running normally."

/-- MonitorService.maybe_send_scheduled_heartbeat of src/monitor.py (lines
104-114): the should_send_heartbeat call (and its meta write) happens before
the dry-run check; dry-run only skips the delivery.  The third component is
the list of messages delivered. -/
def maybe_send_scheduled_heartbeat (settings : Settings) (st : StoreState)
    (now : Int) (dry : Bool) : StoreState × Bool × List String :=
  if !settings.heartbeat_enabled then (st, false, [])
  else
    let check := should_send_heartbeat st now settings.heartbeat_interval_hours
    if !check.2 then (check.1, false, [])
    else if dry then (check.1, true, [])
    else (check.1, true, [heartbeatMessage])

/-- _compute_sleep of src/monitor.py (lines 292-296), with the
random.randint(-jitter, jitter) draw passed in as delta. -/
def compute_sleep (interval jitter delta : Int) : Int :=
  if jitter = 0 then interval else max 30 (interval + delta)

/-- Outcome of the try block of one run_forever iteration: either the polling
steps all succeeded, or one of them raised (a RequestException and any other
exception follow the same control flow). -/
inductive CycleOutcome
  | success
  | failure
deriving DecidableEq, Repr

/-- The sleeps of one run_forever iteration (src/monitor.py lines 134-162) in
order, together with the failure counter after the iteration.  On failure the
except block sleeps the exponential backoff, and control then falls through
to the inter-poll sleep, which is executed as well. -/
def run_forever_iteration (outcome : CycleOutcome) (failureCount : Nat)
    (interval jitter delta : Int) : Nat × List Int :=
  match outcome with
  | .success => (0, [compute_sleep interval jitter delta])
  | .failure =>
      let fc := failureCount + 1
      let backoff : Int := min 300 ((2 : Int) ^ (min fc 8))
      (fc, [backoff, compute_sleep interval jitter delta])

/-- Is this price value falsy in Python (absent or zero)?  Both render as the
empty string inside the fingerprint identity string. -/
def priceIsFalsy (p : Option Int) : Bool :=
  match p with
  | none => true
  | some n => decide (n = 0)

/-- Is this external id falsy in Python (absent or empty)?  Both render as
the empty string inside the fingerprint identity string. -/
def extIdIsFalsy (e : Option String) : Bool :=
  match e with
  | none => true
  | some s => decide (s = "")

theorem fingerprintBase_data (l : Listing) :
    (fingerprintBase l).data =
      (fingerprintExternalId l).data ++ '|' :: (l.url.data ++ '|' ::
        ((pyLower (pyStrip l.title)).data ++ '|' :: (fingerprintPrice l).data)) := by
  simp [fingerprintBase, String.data_append]

theorem fingerprintPrice_inj (p p' : Option Int)
    (hne : p ≠ p')
    (hfal : ¬(priceIsFalsy p = true ∧ priceIsFalsy p' = true))
    (h : priceStr p = priceStr p') : False := by
  unfold priceStr at h
  match p, p' with
  | none, none => exact hne rfl
  | none, some m =>
      by_cases hm : m = 0
      · exact hfal ⟨rfl, by simp [priceIsFalsy, hm]⟩
      · simp only [hm, if_false] at h
        exact intToString_ne_empty m hm h.symm
  | some n, none =>
      by_cases hn : n = 0
      · exact hfal ⟨by simp [priceIsFalsy, hn], rfl⟩
      · simp only [hn, if_false] at h
        exact intToString_ne_empty n hn h
  | some n, some m =>
      by_cases hn : n = 0
      · by_cases hm : m = 0
        · exact hne (by rw [hn, hm])
        · simp only [hn, hm, if_true, if_false] at h
          exact intToString_ne_empty m hm h.symm
      · by_cases hm : m = 0
        · simp only [hn, hm, if_true, if_false] at h
          exact intToString_ne_empty n hn h
        · simp only [hn, hm, if_false] at h
          exact hne (by rw [isoformat_injective n m h])

theorem fingerprintExternalId_inj (e e' : Option String)
    (hne : e ≠ e')
    (hfal : ¬(extIdIsFalsy e = true ∧ extIdIsFalsy e' = true))
    (h : e.getD "" = e'.getD "") : False := by
  match e, e' with
  | none, none => exact hne rfl
  | none, some s =>
      simp only [Option.getD] at h
      exact hfal ⟨rfl, by simp [extIdIsFalsy, ← h]⟩
  | some s, none =>
      simp only [Option.getD] at h
      exact hfal ⟨by simp [extIdIsFalsy, h], rfl⟩
  | some s, some s' =>
      simp only [Option.getD] at h
      exact hne (by rw [h])

/-- C1, amended.  The fingerprint is a pure function of
(external_id, url, normalized title, price): agreement on those four fields
gives equal fingerprints, and title changes that survive strip+lower leave it
unchanged.  Distinctness holds at the level of the pre-hash identity string,
and only outside Python falsiness collisions: a changed url always changes
the identity string; a changed price does unless both values are falsy
(absent or 0 both render as ""); a changed external id does unless both
values are falsy (absent or "").  Equal identity strings give equal
digests. -/
theorem fingerprint_characterization (l l' : Listing) :
    (l.external_id = l'.external_id → l.url = l'.url → l.title = l'.title →
      l.price_eur = l'.price_eur → fingerprint l = fingerprint l') ∧
    (∀ s : String, pyLower (pyStrip s) = pyLower (pyStrip l.title) →
      fingerprint { l with title := s } = fingerprint l) ∧
    (l.external_id = l'.external_id → l.title = l'.title →
      l.price_eur = l'.price_eur → l.url ≠ l'.url →
      fingerprintBase l ≠ fingerprintBase l') ∧
    (l.external_id = l'.external_id → l.url = l'.url → l.title = l'.title →
      l.price_eur ≠ l'.price_eur →
      ¬(priceIsFalsy l.price_eur = true ∧ priceIsFalsy l'.price_eur = true) →
      fingerprintBase l ≠ fingerprintBase l') ∧
    (l.url = l'.url → l.title = l'.title → l.price_eur = l'.price_eur →
      l.external_id ≠ l'.external_id →
      ¬(extIdIsFalsy l.external_id = true ∧ extIdIsFalsy l'.external_id = true) →
      fingerprintBase l ≠ fingerprintBase l') ∧
    (fingerprintBase l = fingerprintBase l' → fingerprint l = fingerprint l') := by
  refine ⟨?_, ?_, ?_, ?_, ?_, ?_⟩
  · intro h1 h2 h3 h4
    unfold fingerprint fingerprintBase fingerprintExternalId fingerprintPrice
    rw [h1, h2, h3, h4]
  · intro s hs
    unfold fingerprint fingerprintBase fingerprintExternalId fingerprintPrice
    simp only
    rw [hs]
  · intro h1 h3 h4 hne heq
    apply hne
    have hd := congrArg String.data heq
    rw [fingerprintBase_data, fingerprintBase_data] at hd
    unfold fingerprintExternalId fingerprintPrice at hd
    rw [h1, h3, h4] at hd
    have h5 := List.append_cancel_left hd
    injection h5 with _ h6
    have h7 := List.append_cancel_right h6
    exact String.ext h7
  · intro h1 h2 h3 hne hfal heq
    have hd := congrArg String.data heq
    rw [fingerprintBase_data, fingerprintBase_data] at hd
    unfold fingerprintExternalId at hd
    rw [h1, h2, h3] at hd
    have h5 := List.append_cancel_left hd
    injection h5 with _ h6
    have h7 := List.append_cancel_left h6
    injection h7 with _ h8
    have h9 := List.append_cancel_left h8
    injection h9 with _ h10
    have h11 : priceStr l.price_eur = priceStr l'.price_eur := String.ext h10
    exact fingerprintPrice_inj l.price_eur l'.price_eur hne hfal h11
  · intro h2 h3 h4 hne hfal heq
    have hd := congrArg String.data heq
    rw [fingerprintBase_data, fingerprintBase_data] at hd
    unfold fingerprintPrice at hd
    rw [h2, h3, h4] at hd
    have h5 := List.append_cancel_right hd
    have h6 : fingerprintExternalId l = fingerprintExternalId l' := String.ext h5
    unfold fingerprintExternalId at h6
    exact fingerprintExternalId_inj l.external_id l'.external_id hne hfal h6
  · intro h
    exact congrArg sha256Hex h

/-- C1 counterexample: changing only the price of a listing from 0 to absent
leaves the fingerprint unchanged, because `str(price_eur or "")` renders both
as the empty string; so a price change does not always change the
fingerprint. -/
theorem fingerprint_price_collision :
    (Listing.mk "t" "u" (some 0) none none none).price_eur ≠
      (Listing.mk "t" "u" none none none none).price_eur ∧
    (Listing.mk "t" "u" (some 0) none none none).title =
      (Listing.mk "t" "u" none none none none).title ∧
    (Listing.mk "t" "u" (some 0) none none none).url =
      (Listing.mk "t" "u" none none none none).url ∧
    (Listing.mk "t" "u" (some 0) none none none).external_id =
      (Listing.mk "t" "u" none none none none).external_id ∧
    fingerprint (Listing.mk "t" "u" (some 0) none none none) =
      fingerprint (Listing.mk "t" "u" none none none none) := by
  refine ⟨by decide, rfl, rfl, rfl, ?_⟩
  have hbase : fingerprintBase (Listing.mk "t" "u" (some 0) none none none) =
      fingerprintBase (Listing.mk "t" "u" none none none none) := by decide
  exact congrArg sha256Hex hbase

/-- Witness for the amended C1 theorem at concrete listings: title casing and
whitespace do not affect the fingerprint, while changing the url, a nonzero
price, or a nonempty external id changes the identity string. -/
theorem fingerprint_characterization_witness :
    fingerprint (Listing.mk "  Studio A " "https://x/1" (some 450) none none (some "id1")) =
      fingerprint (Listing.mk "studio a" "https://x/1" (some 450) none none (some "id1")) ∧
    fingerprintBase (Listing.mk "T" "u1" (some 450) none none none) ≠
      fingerprintBase (Listing.mk "T" "u2" (some 450) none none none) ∧
    fingerprintBase (Listing.mk "T" "u" (some 450) none none none) ≠
      fingerprintBase (Listing.mk "T" "u" (some 451) none none none) ∧
    fingerprintBase (Listing.mk "T" "u" (some 450) none none (some "a")) ≠
      fingerprintBase (Listing.mk "T" "u" (some 450) none none (some "b")) := by
  refine ⟨?_, ?_, ?_, ?_⟩
  · exact (fingerprint_characterization
      (Listing.mk "studio a" "https://x/1" (some 450) none none (some "id1"))
      (Listing.mk "studio a" "https://x/1" (some 450) none none (some "id1"))).2.1
      "  Studio A " (by decide)
  · exact (fingerprint_characterization
      (Listing.mk "T" "u1" (some 450) none none none)
      (Listing.mk "T" "u2" (some 450) none none none)).2.2.1
      rfl rfl rfl (by decide)
  · exact (fingerprint_characterization
      (Listing.mk "T" "u" (some 450) none none none)
      (Listing.mk "T" "u" (some 451) none none none)).2.2.2.1
      rfl rfl rfl (by decide) (by decide)
  · exact (fingerprint_characterization
      (Listing.mk "T" "u" (some 450) none none (some "a"))
      (Listing.mk "T" "u" (some 450) none none (some "b"))).2.2.2.2.1
      rfl rfl rfl (by decide) (by decide)

/-- An ld+json Offer node whose nested offer price is the string "inf". -/
def offerNodeInfPrice : Json :=
  Json.obj [("@type", Json.str "Offer"), ("name", Json.str "Studio"),
            ("offers", Json.obj [("price", Json.str "inf")])]

/-- A document carrying only that structured-data block. -/
def docInfPrice : HtmlDoc :=
  { pageText := "Liste des logements", scripts := [some offerNodeInfPrice], anchors := [] }

/-- C2: the claim that extraction never raises is the documented intent (the
coercion wraps int(float(raw)) in try/except), but the except clause catches
only ValueError; float("inf") parses to infinity and int(inf) raises
OverflowError, which escapes parse_listings. -/
theorem parse_listings_raises_on_inf_price :
    parse_listings docInfPrice "https://example.org/search" =
      .error .overflowError ∧
    coercePrice (some (Json.str "inf")) = .error .overflowError := by
  exact ⟨rfl, rfl⟩

/-- An ld+json Offer node matching the spec's scenario: name, relative url,
string price "420". -/
def offerNode420 : Json :=
  Json.obj [("@type", Json.str "Offer"), ("name", Json.str "Studio 18m"),
            ("url", Json.str "/r/42"),
            ("offers", Json.obj [("price", Json.str "420")])]

/-- The listing that node extracts to under base https://site/search. -/
def listing420 : Listing :=
  { title := "Studio 18m", url := "https://site/r/42", price_eur := some 420 }

/-- A document whose visible text contains the no-results phrase while also
carrying a structured-data Offer. -/
def docPhraseAndOffer : HtmlDoc :=
  { pageText := "Aucun logement trouvé", scripts := [some offerNode420], anchors := [] }

/-- C7 counterexample: on a document containing the no-results phrase, the
structured-metadata strategy yields a record, yet parse_listings returns the
empty list rather than the deduplicated structured-metadata records — the
no-results early return takes precedence over both strategies. -/
theorem parse_listings_phrase_overrides_ldjson :
    parseLdJson "https://site/search" docPhraseAndOffer.scripts = .ok [listing420] ∧
    parse_listings docPhraseAndOffer "https://site/search" = .ok [] ∧
    ([listing420] : List Listing) ≠ [] := by
  refine ⟨rfl, rfl, by simp⟩

/-- C7, amended: on every document whose visible text does not contain the
no-results phrase, the card-like strategy is consulted only when the
structured-metadata strategy yields nothing: if the structured strategy
yields at least one record, parse_listings returns exactly the
fingerprint-deduplicated structured records, whatever the anchors are. -/
theorem ldjson_authoritative (doc : HtmlDoc) (base : String) (ls : List Listing)
    (hphrase : strContains (pyLower doc.pageText) "aucun logement trouvé" = false)
    (hld : parseLdJson base doc.scripts = .ok ls)
    (hne : ls ≠ []) :
    parse_listings doc base = .ok (uniqueByFingerprint ls) ∧
    ∀ anchors2, parse_listings { doc with anchors := anchors2 } base =
      .ok (uniqueByFingerprint ls) := by
  have hempty : ls.isEmpty = false := by
    cases ls with
    | nil => exact absurd rfl hne
    | cons a as => rfl
  constructor
  · simp [parse_listings, hphrase, hld, hempty, hne, bind, Except.bind, pure, Except.pure]
  · intro anchors2
    simp [parse_listings, hphrase, hld, hempty, hne, bind, Except.bind, pure, Except.pure]

/-- Witness for the amended C7 theorem: a document carrying both the Offer
block and a card-like anchor extracts to the structured record alone. -/
theorem ldjson_authoritative_witness :
    parse_listings
      { pageText := "Liste des logements"
        scripts := [some offerNode420]
        anchors := [{ href := "/logement/99", text := "Carte", container := none }] }
      "https://site/search" = .ok (uniqueByFingerprint [listing420]) := by
  exact (ldjson_authoritative
    { pageText := "Liste des logements"
      scripts := [some offerNode420]
      anchors := [{ href := "/logement/99", text := "Carte", container := none }] }
    "https://site/search" [listing420] rfl rfl (by simp)).1

/-- C3 counterexample: a failing iteration of run_forever performs two
sleeps, not one — the exponential backoff inside the except block and then,
because control falls through, the normal jittered inter-poll sleep as
well. -/
theorem run_forever_failure_double_sleep :
    (run_forever_iteration .failure 0 180 20 5).2 = [2, 185] ∧
    (run_forever_iteration .failure 0 180 20 5).2.length ≠ 1 := by
  refine ⟨?_, by simp [run_forever_iteration]⟩
  simp only [run_forever_iteration, compute_sleep]
  norm_num

/-- C3, amended: a failing iteration sleeps exactly twice, first the
exponential backoff min(300, 2^min(failures, 8)) and then additionally the
normal jittered inter-poll sleep; the backoff does not replace it.  A
successful iteration sleeps exactly once, the jittered inter-poll sleep. -/
theorem run_forever_iteration_sleeps (failureCount : Nat) (interval jitter delta : Int)
    (hdelta : -jitter ≤ delta ∧ delta ≤ jitter) :
    (run_forever_iteration .failure failureCount interval jitter delta).2 =
      [min 300 ((2 : Int) ^ (min (failureCount + 1) 8)),
        compute_sleep interval jitter delta] ∧
    (run_forever_iteration .failure failureCount interval jitter delta).2.length = 2 ∧
    (run_forever_iteration .success failureCount interval jitter delta).2 =
      [compute_sleep interval jitter delta] ∧
    (jitter = 0 → compute_sleep interval jitter delta = interval) ∧
    (jitter ≠ 0 → compute_sleep interval jitter delta = max 30 (interval + delta)) := by
  refine ⟨rfl, rfl, rfl, ?_, ?_⟩
  · intro h
    simp [compute_sleep, h]
  · intro h
    simp [compute_sleep, h]

/-- Witness for the C3 amended theorem at a concrete failing iteration with
the default interval and jitter. -/
theorem run_forever_iteration_sleeps_witness :
    (run_forever_iteration .failure 0 180 20 5).2 =
      [min 300 ((2 : Int) ^ (min (0 + 1) 8)), compute_sleep 180 20 5] ∧
    (run_forever_iteration .failure 0 180 20 5).2.length = 2 ∧
    (run_forever_iteration .success 0 180 20 5).2 = [compute_sleep 180 20 5] ∧
    ((20 : Int) = 0 → compute_sleep 180 20 5 = 180) ∧
    ((20 : Int) ≠ 0 → compute_sleep 180 20 5 = max 30 (180 + 5)) :=
  run_forever_iteration_sleeps 0 180 20 5 (by decide)

/-- C10: in dry-run mode maybe_send_scheduled_heartbeat reaches
should_send_heartbeat before consulting the dry-run flag, so the resulting
store state and the returned flag coincide with the non-dry-run run at the
same instant; only the delivery is suppressed. -/
theorem dry_run_heartbeat_state (settings : Settings) (st : StoreState) (now : Int) :
    (maybe_send_scheduled_heartbeat settings st now true).1 =
      (maybe_send_scheduled_heartbeat settings st now false).1 ∧
    (maybe_send_scheduled_heartbeat settings st now true).2.1 =
      (maybe_send_scheduled_heartbeat settings st now false).2.1 ∧
    (maybe_send_scheduled_heartbeat settings st now true).2.2 = [] := by
  unfold maybe_send_scheduled_heartbeat
  by_cases he : settings.heartbeat_enabled
  · simp only [he, Bool.not_true, if_false]
    by_cases hc : (should_send_heartbeat st now settings.heartbeat_interval_hours).2
    · simp [hc]
    · simp [hc]
  · simp only [Bool.not_eq_true] at he
    simp [he]

theorem keyword_rejection_eq (kws : List String) (x : Listing) :
    (!kws.isEmpty && !kws.any (fun k => strContains (keywordHaystack x) k)) =
      !keywordPasses kws x := by
  simp [keywordPasses, Bool.not_or]

theorem apply_filters_eq_filter (mp : Option Int) (kws : List String) :
    ∀ ls : List Listing,
      apply_filters mp kws ls =
        ls.filter (fun l => !priceExceeds mp l.price_eur && keywordPasses kws l) := by
  intro ls
  induction ls with
  | nil => rfl
  | cons x rest ih =>
      unfold apply_filters
      rw [keyword_rejection_eq]
      by_cases hp : priceExceeds mp x.price_eur
      · simp [hp, List.filter_cons, ih]
      · by_cases hk : keywordPasses kws x
        · simp [hp, hk, List.filter_cons, ih]
        · simp [hp, hk, List.filter_cons, ih]

theorem mem_apply_filters (mp : Option Int) (kws : List String) (l : Listing)
    (ls : List Listing) :
    l ∈ apply_filters mp kws ls ↔
      l ∈ ls ∧ priceExceeds mp l.price_eur = false ∧ keywordPasses kws l = true := by
  rw [apply_filters_eq_filter, List.mem_filter]
  simp only [Bool.and_eq_true, Bool.not_eq_true']


/-- C5: under any configured max price, a listing with absent price is never
rejected by the price rule and passes the filter whenever the keyword rule
passes it; a price exactly equal to the max passes; a price of max + 1 is
rejected; and the price rule rejects exactly when both the max price and the
listing price are set with price > max. -/
theorem max_price_filter_behaviour (mp : Option Int) (m : Int) (kws : List String)
    (l : Listing) (ls : List Listing) :
    (l.price_eur = none → keywordPasses kws l = true → apply_filters mp kws [l] = [l]) ∧
    (l.price_eur = some m → keywordPasses kws l = true →
      apply_filters (some m) kws [l] = [l]) ∧
    (l.price_eur = some (m + 1) → apply_filters (some m) kws [l] = []) ∧
    (l ∈ apply_filters mp kws ls ↔
      l ∈ ls ∧ priceExceeds mp l.price_eur = false ∧ keywordPasses kws l = true) ∧
    (priceExceeds mp l.price_eur = true ↔
      ∃ mm p, mp = some mm ∧ l.price_eur = some p ∧ mm < p) := by
  refine ⟨?_, ?_, ?_, mem_apply_filters mp kws l ls, ?_⟩
  · intro hp hk
    rw [apply_filters_eq_filter]
    simp [hp, hk, priceExceeds, List.filter_cons]
  · intro hp hk
    rw [apply_filters_eq_filter]
    simp [hp, hk, priceExceeds, List.filter_cons]
  · intro hp
    rw [apply_filters_eq_filter]
    simp [hp, priceExceeds, List.filter_cons]
  · unfold priceExceeds
    match hmp : mp, hpe : l.price_eur with
    | none, none => simp
    | none, some p => simp
    | some mm, none => simp
    | some mm, some p => simp

/-- Witness for the C5 theorem: with max price 500 and no keywords, an
absent-price listing passes, a 500 listing passes, a 501 listing is
rejected. -/
theorem max_price_filter_behaviour_witness :
    apply_filters (some 500) [] [Listing.mk "a" "u" none none none none] =
      [Listing.mk "a" "u" none none none none] ∧
    apply_filters (some 500) [] [Listing.mk "b" "u" (some 500) none none none] =
      [Listing.mk "b" "u" (some 500) none none none] ∧
    apply_filters (some 500) [] [Listing.mk "c" "u" (some 501) none none none] = [] := by
  refine ⟨?_, ?_, ?_⟩
  · exact (max_price_filter_behaviour (some 500) 500 []
      (Listing.mk "a" "u" none none none none) []).1 rfl (by decide)
  · exact (max_price_filter_behaviour (some 500) 500 []
      (Listing.mk "b" "u" (some 500) none none none) []).2.1 rfl (by decide)
  · exact (max_price_filter_behaviour (some 500) 500 []
      (Listing.mk "c" "u" (some 501) none none none) []).2.2.1 (by norm_num)

theorem isoformat_ne_empty (t : Int) : isoformat t ≠ "" := by
  unfold isoformat intToString
  by_cases h : t < 0
  · simp only [h, if_true]
    intro he
    have hd := congrArg String.data he
    rw [String.data_append] at hd
    cases hn : (natToString t.natAbs).data with
    | nil => exact natToString_ne_empty t.natAbs hn
    | cons c cs => rw [hn] at hd; cases hd
  · simp only [h, if_false]
    intro he
    exact natToString_ne_empty t.natAbs (congrArg String.data he)

/-- C6: on the first-ever call (no persisted timestamp),
should_send_heartbeat records the current instant and returns false, while
should_send_error_alert records it and returns true; on later calls (the
stored timestamp was written by isoformat), each returns true and rewrites
its timestamp exactly when the elapsed time reaches the interval or
cooldown, and otherwise returns false leaving the store untouched. -/
theorem heartbeat_and_alert_behaviour (st : StoreState) (now t ih cm : Int) :
    (st.getMeta "last_heartbeat_at" = none →
      should_send_heartbeat st now ih =
        (st.setMeta "last_heartbeat_at" (isoformat now), false)) ∧
    (st.getMeta "last_error_alert_at" = none →
      should_send_error_alert st now cm =
        (st.setMeta "last_error_alert_at" (isoformat now), true)) ∧
    (st.getMeta "last_heartbeat_at" = some (isoformat t) →
      (ih * 3600 ≤ now - t →
        should_send_heartbeat st now ih =
          (st.setMeta "last_heartbeat_at" (isoformat now), true)) ∧
      (now - t < ih * 3600 → should_send_heartbeat st now ih = (st, false))) ∧
    (st.getMeta "last_error_alert_at" = some (isoformat t) →
      (cm * 60 ≤ now - t →
        should_send_error_alert st now cm =
          (st.setMeta "last_error_alert_at" (isoformat now), true)) ∧
      (now - t < cm * 60 → should_send_error_alert st now cm = (st, false))) := by
  refine ⟨?_, ?_, ?_, ?_⟩
  · intro h
    unfold should_send_heartbeat
    rw [h]
  · intro h
    unfold should_send_error_alert
    rw [h]
  · intro h
    unfold should_send_heartbeat
    rw [h]
    simp only [isoformat_ne_empty t, if_false, fromisoformat_isoformat]
    constructor
    · intro hge
      rw [if_pos (by omega)]
    · intro hlt
      rw [if_neg (by omega)]
  · intro h
    unfold should_send_error_alert
    rw [h]
    simp only [isoformat_ne_empty t, if_false, fromisoformat_isoformat]
    constructor
    · intro hge
      rw [if_pos (by omega)]
    · intro hlt
      rw [if_neg (by omega)]

/-- Witness for the C6 theorem: first-ever calls on an empty store, then
calls on a store holding timestamp 1000, once after the interval elapsed and
once before. -/
theorem heartbeat_and_alert_behaviour_witness :
    should_send_heartbeat emptyStore 50 24 =
      (emptyStore.setMeta "last_heartbeat_at" (isoformat 50), false) ∧
    should_send_error_alert emptyStore 50 180 =
      (emptyStore.setMeta "last_error_alert_at" (isoformat 50), true) ∧
    should_send_heartbeat
      (emptyStore.setMeta "last_heartbeat_at" (isoformat 1000)) 90000 24 =
      ((emptyStore.setMeta "last_heartbeat_at" (isoformat 1000)).setMeta
        "last_heartbeat_at" (isoformat 90000), true) ∧
    should_send_heartbeat
      (emptyStore.setMeta "last_heartbeat_at" (isoformat 1000)) 2000 24 =
      (emptyStore.setMeta "last_heartbeat_at" (isoformat 1000), false) := by
  refine ⟨?_, ?_, ?_, ?_⟩
  · exact (heartbeat_and_alert_behaviour emptyStore 50 0 24 180).1 rfl
  · exact (heartbeat_and_alert_behaviour emptyStore 50 0 24 180).2.1 rfl
  · exact ((heartbeat_and_alert_behaviour
      (emptyStore.setMeta "last_heartbeat_at" (isoformat 1000)) 90000 1000 24 180).2.2.1
      (by decide)).1 (by norm_num)
  · exact ((heartbeat_and_alert_behaviour
      (emptyStore.setMeta "last_heartbeat_at" (isoformat 1000)) 2000 1000 24 180).2.2.1
      (by decide)).2 (by norm_num)

theorem seenHas_append (rows : List SeenRow) (r : SeenRow) (fp : String) :
    seenHas (rows ++ [r]) fp = (seenHas rows fp || decide (r.fingerprint = fp)) := by
  simp [seenHas, List.any_append]

theorem filterNewAux_out_fresh (now : String) :
    ∀ (ls : List Listing) (rows : List SeenRow) (l : Listing),
      l ∈ (filterNewAux now ls rows).2 → seenHas rows (fingerprint l) = false := by
  intro ls
  induction ls with
  | nil => intro rows l h; cases h
  | cons x rest ih =>
      intro rows l h
      unfold filterNewAux at h
      by_cases hx : seenHas rows (fingerprint x)
      · rw [if_pos hx] at h
        exact ih rows l h
      · rw [if_neg hx] at h
        simp only [List.mem_cons] at h
        rcases h with h1 | h1
        · subst h1
          exact Bool.not_eq_true _ ▸ (by simpa using hx)
        · have h2 := ih _ l h1
          rw [seenHas_append, Bool.or_eq_false_iff] at h2
          exact h2.1

theorem filterNewAux_rows_has (now : String) :
    ∀ (ls : List Listing) (rows : List SeenRow) (fp : String),
      seenHas (filterNewAux now ls rows).1 fp =
        (seenHas rows fp || ls.any (fun l => fingerprint l = fp)) := by
  intro ls
  induction ls with
  | nil => intro rows fp; simp [filterNewAux]
  | cons x rest ih =>
      intro rows fp
      unfold filterNewAux
      by_cases hx : seenHas rows (fingerprint x)
      · rw [if_pos hx]
        rw [ih]
        by_cases hfp : fingerprint x = fp
        · subst hfp
          simp [hx]
        · simp [hfp]
      · rw [if_neg hx]
        simp only
        rw [ih, seenHas_append]
        simp [Bool.or_assoc]

theorem filterNewAux_out_none_of_seen (now : String) :
    ∀ (ls : List Listing) (rows : List SeenRow) (fp : String),
      seenHas rows fp = true →
      (filterNewAux now ls rows).2.filter (fun l => fingerprint l = fp) = [] := by
  intro ls rows fp hseen
  rw [List.filter_eq_nil]
  intro l hl
  have := filterNewAux_out_fresh now ls rows l hl
  simp only [decide_eq_true_eq]
  intro heq
  rw [heq] at this
  rw [this] at hseen
  cases hseen

theorem filterNewAux_out_count (now : String) :
    ∀ (ls : List Listing) (rows : List SeenRow) (fp : String),
      ((filterNewAux now ls rows).2.filter (fun l => fingerprint l = fp)).length ≤ 1 := by
  intro ls
  induction ls with
  | nil => intro rows fp; simp [filterNewAux]
  | cons x rest ih =>
      intro rows fp
      unfold filterNewAux
      by_cases hx : seenHas rows (fingerprint x)
      · rw [if_pos hx]
        exact ih rows fp
      · rw [if_neg hx]
        simp only
        by_cases hfp : fingerprint x = fp
        · have hcond : (fun l => decide (fingerprint l = fp)) x = true := by simp [hfp]
          have hz := filterNewAux_out_none_of_seen now rest
            (rows ++ [⟨fingerprint x, x.title, x.url, now⟩]) fp
            (by rw [seenHas_append, hfp]; simp)
          rw [List.filter_cons, if_pos hcond, hz]
          simp
        · have hcond : ¬((fun l => decide (fingerprint l = fp)) x = true) := by simp [hfp]
          rw [List.filter_cons, if_neg hcond]
          exact ih _ fp

theorem rows_filter_of_not_seen (rows : List SeenRow) (fp : String)
    (h : seenHas rows fp = false) :
    rows.filter (fun r => r.fingerprint = fp) = [] := by
  rw [List.filter_eq_nil]
  intro r hr
  simp only [decide_eq_true_eq]
  intro heq
  unfold seenHas at h
  rw [List.any_eq_false] at h
  have := h r hr
  simp [heq] at this

theorem filterNewAux_rows_count_of_seen (now : String) :
    ∀ (ls : List Listing) (rows : List SeenRow) (fp : String),
      seenHas rows fp = true →
      ((filterNewAux now ls rows).1.filter (fun r => r.fingerprint = fp)).length =
        (rows.filter (fun r => r.fingerprint = fp)).length := by
  intro ls
  induction ls with
  | nil => intro rows fp h; simp [filterNewAux]
  | cons x rest ih =>
      intro rows fp h
      unfold filterNewAux
      by_cases hx : seenHas rows (fingerprint x)
      · rw [if_pos hx]
        exact ih rows fp h
      · rw [if_neg hx]
        simp only
        have hne : fingerprint x ≠ fp := by
          intro heq
          rw [heq] at hx
          rw [h] at hx
          cases hx rfl
        rw [ih _ fp (by rw [seenHas_append, h]; simp)]
        rw [List.filter_append]
        simp [hne]

theorem filterNewAux_rows_count (now : String) :
    ∀ (ls : List Listing) (rows : List SeenRow) (fp : String),
      seenHas rows fp = false →
      ((filterNewAux now ls rows).1.filter (fun r => r.fingerprint = fp)).length ≤ 1 := by
  intro ls
  induction ls with
  | nil =>
      intro rows fp h
      simp [filterNewAux, rows_filter_of_not_seen rows fp h]
  | cons x rest ih =>
      intro rows fp h
      unfold filterNewAux
      by_cases hx : seenHas rows (fingerprint x)
      · rw [if_pos hx]
        exact ih rows fp h
      · rw [if_neg hx]
        simp only
        by_cases hfp : fingerprint x = fp
        · rw [filterNewAux_rows_count_of_seen now rest _ fp
            (by rw [seenHas_append, hfp]; simp)]
          rw [List.filter_append, rows_filter_of_not_seen rows fp h]
          simp [hfp]
        · have h2 : seenHas (rows ++ [⟨fingerprint x, x.title, x.url, now⟩]) fp = false := by
            rw [seenHas_append, h]
            simp [hfp]
          exact ih _ fp h2

/-- C4: filter_new is idempotent per fingerprint.  A listing is returned only
when its fingerprint was not already in the seen table; every returned
listing's fingerprint is in the table afterwards; a later call never returns
a listing carrying the fingerprint of an earlier returned one; within one
call at most one listing per fingerprint is returned; and a fresh fingerprint
gains at most one table row, duplicates being no-ops. -/
theorem filter_new_idempotent (st : StoreState) (now now2 : String)
    (ls ls2 : List Listing) :
    (∀ l, l ∈ (filter_new st now ls).2 → seenHas st.seen (fingerprint l) = false) ∧
    (∀ l, l ∈ (filter_new st now ls).2 →
      seenHas (filter_new st now ls).1.seen (fingerprint l) = true) ∧
    (∀ l, l ∈ (filter_new st now ls).2 →
      (filter_new (filter_new st now ls).1 now2 ls2).2.filter
        (fun x => fingerprint x = fingerprint l) = []) ∧
    (∀ fp, ((filter_new st now ls).2.filter (fun x => fingerprint x = fp)).length ≤ 1) ∧
    (∀ fp, seenHas st.seen fp = false →
      ((filter_new st now ls).1.seen.filter (fun r => r.fingerprint = fp)).length ≤ 1) := by
  refine ⟨?_, ?_, ?_, ?_, ?_⟩
  · intro l hl
    exact filterNewAux_out_fresh now ls st.seen l hl
  · intro l hl
    show seenHas (filterNewAux now ls st.seen).1 (fingerprint l) = true
    rw [filterNewAux_rows_has]
    have : ls.any (fun x => fingerprint x = fingerprint l) = true := by
      rw [List.any_eq_true]
      have hmem : l ∈ ls := by
        have hsub : ∀ (ls0 : List Listing) (rows : List SeenRow),
            l ∈ (filterNewAux now ls0 rows).2 → l ∈ ls0 := by
          intro ls0
          induction ls0 with
          | nil => intro rows h; cases h
          | cons x rest ih =>
              intro rows h
              unfold filterNewAux at h
              by_cases hx : seenHas rows (fingerprint x)
              · rw [if_pos hx] at h
                exact List.mem_cons_of_mem x (ih _ h)
              · rw [if_neg hx] at h
                simp only [List.mem_cons] at h
                rcases h with h1 | h1
                · exact h1 ▸ List.mem_cons_self x rest
                · exact List.mem_cons_of_mem x (ih _ h1)
        exact hsub ls st.seen hl
      exact ⟨l, hmem, by simp⟩
    rw [this]
    simp
  · intro l hl
    show (filterNewAux now2 ls2 (filterNewAux now ls st.seen).1).2.filter
      (fun x => fingerprint x = fingerprint l) = []
    apply filterNewAux_out_none_of_seen
    rw [filterNewAux_rows_has]
    have : ls.any (fun x => fingerprint x = fingerprint l) = true := by
      rw [List.any_eq_true]
      have hsub : ∀ (ls0 : List Listing) (rows : List SeenRow),
          l ∈ (filterNewAux now ls0 rows).2 → l ∈ ls0 := by
        intro ls0
        induction ls0 with
        | nil => intro rows h; cases h
        | cons x rest ih =>
            intro rows h
            unfold filterNewAux at h
            by_cases hx : seenHas rows (fingerprint x)
            · rw [if_pos hx] at h
              exact List.mem_cons_of_mem x (ih _ h)
            · rw [if_neg hx] at h
              simp only [List.mem_cons] at h
              rcases h with h1 | h1
              · exact h1 ▸ List.mem_cons_self x rest
              · exact List.mem_cons_of_mem x (ih _ h1)
      exact ⟨l, hsub ls st.seen hl, by simp⟩
    rw [this]
    simp
  · intro fp
    exact filterNewAux_out_count now ls st.seen fp
  · intro fp hfp
    exact filterNewAux_rows_count now ls st.seen fp hfp

/-- A concrete listing used to witness the idempotence theorem. -/
def listingDup : Listing :=
  { title := "Dup", url := "https://x/9", price_eur := some 300 }

/-- Witness for the C4 theorem: the same listing fed twice in one call and
again in a second call is returned only once, and only one row is stored. -/
theorem filter_new_idempotent_witness :
    seenHas emptyStore.seen (fingerprint listingDup) = false ∧
    seenHas (filter_new emptyStore "t0" [listingDup, listingDup]).1.seen
      (fingerprint listingDup) = true ∧
    (filter_new (filter_new emptyStore "t0" [listingDup, listingDup]).1 "t1"
      [listingDup]).2.filter (fun x => fingerprint x = fingerprint listingDup) = [] ∧
    ((filter_new emptyStore "t0" [listingDup, listingDup]).2.filter
      (fun x => fingerprint x = fingerprint listingDup)).length ≤ 1 ∧
    ((filter_new emptyStore "t0" [listingDup, listingDup]).1.seen.filter
      (fun r => r.fingerprint = fingerprint listingDup)).length ≤ 1 := by
  refine ⟨(filter_new_idempotent emptyStore "t0" "t1" [listingDup, listingDup]
      [listingDup]).1 listingDup (by decide),
    (filter_new_idempotent emptyStore "t0" "t1" [listingDup, listingDup]
      [listingDup]).2.1 listingDup (by decide),
    (filter_new_idempotent emptyStore "t0" "t1" [listingDup, listingDup]
      [listingDup]).2.2.1 listingDup (by decide),
    (filter_new_idempotent emptyStore "t0" "t1" [listingDup, listingDup]
      [listingDup]).2.2.2.1 (fingerprint listingDup),
    (filter_new_idempotent emptyStore "t0" "t1" [listingDup, listingDup]
      [listingDup]).2.2.2.2 (fingerprint listingDup) (by decide)⟩

theorem getMetaList_setMetaList_same :
    ∀ (m : List (String × String)) (key v : String),
      getMetaList (setMetaList m key v) key = some v := by
  intro m
  induction m with
  | nil => intro key v; simp [setMetaList, getMetaList]
  | cons kv rest ih =>
      intro key v
      unfold setMetaList
      by_cases h : kv.1 = key
      · simp [h, getMetaList]
      · cases kv with
        | mk k1 v1 =>
            simp only at h
            simp [h, getMetaList, ih]

theorem getMetaList_setMetaList_ne :
    ∀ (m : List (String × String)) (key key' v : String), key' ≠ key →
      getMetaList (setMetaList m key v) key' = getMetaList m key' := by
  intro m
  induction m with
  | nil =>
      intro key key' v h
      have h' : ¬(key = key') := fun he => h he.symm
      simp [setMetaList, getMetaList, h']
  | cons kv rest ih =>
      intro key key' v h
      cases kv with
      | mk k1 v1 =>
          by_cases hk : k1 = key
          · subst hk
            have h' : ¬(k1 = key') := fun he => h he.symm
            simp [setMetaList, getMetaList, h']
          · by_cases hk2 : k1 = key'
            · simp [setMetaList, getMetaList, hk, hk2, h]
            · simp [setMetaList, getMetaList, hk, hk2, ih _ _ _ h]

theorem getMeta_setMeta_same (st : StoreState) (key v : String) :
    (st.setMeta key v).getMeta key = some v :=
  getMetaList_setMetaList_same st.meta key v

theorem getMeta_setMeta_ne (st : StoreState) (key key' v : String) (h : key' ≠ key) :
    (st.setMeta key v).getMeta key' = st.getMeta key' :=
  getMetaList_setMetaList_ne st.meta key key' v h

theorem overrideAndReply_state (settings : Settings) (st : StoreState)
    (key v : String) (dry : Bool) :
    (overrideAndReply settings st key v dry).1 =
      (if dry then st else st.setMeta key v) := by
  unfold overrideAndReply
  cases h : get_effective_filters settings (if dry then st else st.setMeta key v) with
  | ok f => simp [h]
  | error e => simp [h]

/-- The command handler never touches the telegram_update_offset meta key. -/
theorem handler_preserves_offset (settings : Settings) (st : StoreState)
    (text chatId : String) (dry : Bool) :
    ((handle_telegram_command settings st text chatId dry).1).getMeta
        "telegram_update_offset" =
      st.getMeta "telegram_update_offset" := by
  unfold handle_telegram_command
  simp only
  split_ifs <;>
    first
    | rfl
    | (rw [overrideAndReply_state]
       split_ifs
       · rfl
       · exact getMeta_setMeta_ne _ _ _ _ (by decide))
    | (cases h : get_effective_filters settings st <;> simp [h])

theorem syncLoop_preserves_offset (settings : Settings) (dry : Bool) :
    ∀ (updates : List TgUpdate) (st : StoreState) (processed : Nat) (maxId : Int),
      (syncLoop settings dry updates st processed maxId).1.getMeta
          "telegram_update_offset" =
        st.getMeta "telegram_update_offset" := by
  intro updates
  induction updates with
  | nil => intro st processed maxId; rfl
  | cons u rest ih =>
      intro st processed maxId
      unfold syncLoop
      cases hm : u.message <|> u.edited_message with
      | none => exact ih st processed _
      | some msg =>
          simp only
          split_ifs with h1 h2
          · exact ih st processed _
          · exact ih st processed _
          · cases hh : handle_telegram_command settings st (pyStrip msg.text)
              (match msg.chat with | some c => c.id | none => "") dry with
            | mk st2 r =>
                cases r with
                | error e =>
                    simp only
                    rw [show st2 = (handle_telegram_command settings st
                      (pyStrip msg.text)
                      (match msg.chat with | some c => c.id | none => "") dry).1 by
                        rw [hh]]
                    exact handler_preserves_offset settings st _ _ dry
                | ok replies =>
                    simp only
                    rw [ih st2 (processed + 1) _]
                    rw [show st2 = (handle_telegram_command settings st
                      (pyStrip msg.text)
                      (match msg.chat with | some c => c.id | none => "") dry).1 by
                        rw [hh]]
                    exact handler_preserves_offset settings st _ _ dry

/-- The running maximum the loop computes over the batch. -/
def updatesMaxId (updates : List TgUpdate) (init : Int) : Int :=
  updates.foldl
    (fun m u =>
      match u.update_id with
      | some i => max m i
      | none => m)
    init

theorem syncLoop_maxId (settings : Settings) (dry : Bool) :
    ∀ (updates : List TgUpdate) (st : StoreState) (processed : Nat) (maxId : Int)
      (st' : StoreState) (p' : Nat) (m' : Int),
      syncLoop settings dry updates st processed maxId = (st', .ok (p', m')) →
      m' = updatesMaxId updates maxId := by
  intro updates
  induction updates with
  | nil =>
      intro st processed maxId st' p' m' h
      unfold syncLoop at h
      injection h with h1 h2
      injection h2 with h3
      injection h3 with h4 h5
      exact h5.symm
  | cons u rest ih =>
      intro st processed maxId st' p' m' h
      unfold syncLoop at h
      cases hm : u.message <|> u.edited_message with
      | none =>
          rw [hm] at h
          have := ih st processed _ st' p' m' h
          simpa [updatesMaxId] using this
      | some msg =>
          rw [hm] at h
          simp only at h
          split_ifs at h with h1 h2
          · have := ih st processed _ st' p' m' h
            simpa [updatesMaxId] using this
          · have := ih st processed _ st' p' m' h
            simpa [updatesMaxId] using this
          · cases hh : handle_telegram_command settings st (pyStrip msg.text)
              (match msg.chat with | some c => c.id | none => "") dry with
            | mk st2 r =>
                rw [hh] at h
                cases r with
                | error e => simp at h
                | ok replies =>
                    simp only at h
                    have := ih st2 (processed + 1) _ st' p' m' h
                    simpa [updatesMaxId] using this

/-- C8, amended.  After a non-dry-run sync_telegram_commands call that
returns normally, the persisted offset is advanced to one past the maximum
integer update_id of the whole fetched batch whenever that maximum is at
least the current offset — including past updates that were skipped (no
message, foreign chat, or non-command text) — and is left at the current
offset otherwise; a dry run never advances it. -/
theorem sync_offset_advance (settings : Settings) (st : StoreState)
    (updates : List TgUpdate) (st' : StoreState) (processed : Nat) (offset : Int)
    (hraw : st.getMeta "telegram_update_offset" = some (intToString offset))
    (hok : sync_telegram_commands settings st updates false = (st', .ok processed)) :
    (updates ≠ [] → offset ≤ updatesMaxId updates (offset - 1) →
      st'.getMeta "telegram_update_offset" =
        some (intToString (updatesMaxId updates (offset - 1) + 1))) ∧
    ((updates = [] ∨ updatesMaxId updates (offset - 1) < offset) →
      st'.getMeta "telegram_update_offset" = some (intToString offset)) ∧
    (∀ st2 r2, sync_telegram_commands settings st updates true = (st2, r2) →
      st2.getMeta "telegram_update_offset" = st.getMeta "telegram_update_offset") := by
  have hnempty : intToString offset ≠ "" := isoformat_ne_empty offset
  unfold sync_telegram_commands at hok
  rw [hraw] at hok
  simp only [hnempty, if_false, pyStrToInt_intToString] at hok
  have hdry : ∀ st2 r2, sync_telegram_commands settings st updates true = (st2, r2) →
      st2.getMeta "telegram_update_offset" = st.getMeta "telegram_update_offset" := by
    intro st2 r2 h2
    unfold sync_telegram_commands at h2
    rw [hraw] at h2
    simp only [hnempty, if_false, pyStrToInt_intToString] at h2
    by_cases hupd : updates.isEmpty
    · rw [if_pos hupd] at h2
      injection h2 with h3 h4
      rw [← h3]
    · rw [if_neg hupd] at h2
      cases hloop : syncLoop settings true updates st 0 (offset - 1) with
      | mk stL r =>
          rw [hloop] at h2
          cases r with
          | error e =>
              injection h2 with h3 h4
              rw [← h3, show stL = (syncLoop settings true updates st 0 (offset - 1)).1 by
                rw [hloop]]
              exact syncLoop_preserves_offset settings true updates st 0 (offset - 1)
          | ok pm =>
              cases pm with
              | mk p m =>
                  simp only [Bool.not_true, Bool.and_false, if_false] at h2
                  injection h2 with h3 h4
                  rw [← h3, show stL = (syncLoop settings true updates st 0 (offset - 1)).1 by
                    rw [hloop]]
                  exact syncLoop_preserves_offset settings true updates st 0 (offset - 1)
  by_cases hupd : updates.isEmpty
  · rw [if_pos hupd] at hok
    injection hok with h3 h4
    refine ⟨?_, ?_, hdry⟩
    · intro hne
      exact absurd (List.isEmpty_iff.mp hupd) hne
    · intro _
      rw [← h3, hraw]
  · rw [if_neg hupd] at hok
    cases hloop : syncLoop settings false updates st 0 (offset - 1) with
    | mk stL r =>
        rw [hloop] at hok
        cases r with
        | error e => cases hok
        | ok pm =>
            cases pm with
            | mk p m =>
                simp only [Bool.not_false, Bool.and_true] at hok
                have hmax : m = updatesMaxId updates (offset - 1) :=
                  syncLoop_maxId settings false updates st 0 (offset - 1) stL p m hloop
                have hpres : stL.getMeta "telegram_update_offset" =
                    st.getMeta "telegram_update_offset" := by
                  rw [show stL = (syncLoop settings false updates st 0 (offset - 1)).1 by
                    rw [hloop]]
                  exact syncLoop_preserves_offset settings false updates st 0 (offset - 1)
                by_cases hle : offset ≤ m
                · rw [if_pos (by simpa using hle)] at hok
                  injection hok with h3 h4
                  refine ⟨?_, ?_, hdry⟩
                  · intro _ _
                    rw [← h3, ← hmax]
                    exact getMeta_setMeta_same stL "telegram_update_offset"
                      (intToString (m + 1))
                  · intro hcase
                    rcases hcase with hcase | hcase
                    · rw [hcase] at hupd
                      exact absurd rfl hupd
                    · rw [← hmax] at hcase
                      omega
                · rw [if_neg (by simpa using hle)] at hok
                  injection hok with h3 h4
                  refine ⟨?_, ?_, hdry⟩
                  · intro _ hle2
                    rw [← hmax] at hle2
                    omega
                  · intro _
                    rw [← h3, hpres, hraw]

/-- A settings value with one configured chat and the defaults of
src/config.py for the remaining monitor fields. -/
def settingsOneChat : Settings :=
  { telegram_chat_ids := ["1"]
    poll_interval_seconds := 180
    poll_jitter_seconds := 20
    filter_max_price_eur := none
    filter_include_keywords := []
    heartbeat_enabled := false
    heartbeat_interval_hours := 168
    error_alert_threshold := 3
    error_alert_cooldown_minutes := 180 }

/-- An update that the loop skips: it has an id but no message payload. -/
def skippedUpdate : TgUpdate :=
  { update_id := some 5, message := none, edited_message := none }

/-- C8 counterexample: a batch holding a single update with no message object
is skipped (zero commands processed), yet the non-dry-run sync advances the
persisted offset past it, to 6. -/
theorem sync_advances_past_skipped_update :
    (sync_telegram_commands settingsOneChat emptyStore [skippedUpdate] false).2 =
      .ok 0 ∧
    (sync_telegram_commands settingsOneChat emptyStore [skippedUpdate] false).1.getMeta
      "telegram_update_offset" = some "6" := by
  exact ⟨rfl, rfl⟩

/-- Witness for the amended C8 theorem: with a stored offset of 3 and a
batch holding only the skipped update with id 5, the offset becomes 6, and
the dry run leaves it at 3. -/
theorem sync_offset_advance_witness :
    (sync_telegram_commands settingsOneChat
      (emptyStore.setMeta "telegram_update_offset" (intToString 3))
      [skippedUpdate] false).1.getMeta "telegram_update_offset" =
      some (intToString (updatesMaxId [skippedUpdate] (3 - 1) + 1)) ∧
    (sync_telegram_commands settingsOneChat
      (emptyStore.setMeta "telegram_update_offset" (intToString 3))
      [skippedUpdate] true).1.getMeta "telegram_update_offset" =
      (emptyStore.setMeta "telegram_update_offset" (intToString 3)).getMeta
        "telegram_update_offset" := by
  constructor
  · exact (sync_offset_advance settingsOneChat
      (emptyStore.setMeta "telegram_update_offset" (intToString 3))
      [skippedUpdate] _ _ 3 (by decide) rfl).1 (by simp) (by decide)
  · exact (sync_offset_advance settingsOneChat
      (emptyStore.setMeta "telegram_update_offset" (intToString 3))
      [skippedUpdate] _ _ 3 (by decide) rfl).2.2 _ _ rfl

/-- C9, amended.  Every value the command handler writes to
filter_max_price_override is either the empty string (clearmaxprice) or a
string passing Python's isdigit (setmaxprice); ASCII-digit arguments then
parse under int(), but isdigit is wider than int()'s decimal grammar, so a
non-decimal digit argument such as "²" passes the guard yet still makes the
int() parse of the override fail. -/
theorem setmaxprice_override_values (settings : Settings) (st : StoreState)
    (text chatId : String) (dry : Bool) :
    (((handle_telegram_command settings st text chatId dry).1).getMeta
        "filter_max_price_override" = st.getMeta "filter_max_price_override" ∨
      ((handle_telegram_command settings st text chatId dry).1).getMeta
        "filter_max_price_override" = some "" ∨
      ∃ s, ((handle_telegram_command settings st text chatId dry).1).getMeta
          "filter_max_price_override" = some s ∧ pyIsDigitStr s = true) ∧
    (∀ s : String, s.data ≠ [] → s.data.all isAsciiDigit = true →
      pyStrToInt s = .ok ((digitsVal s.data : Nat) : Int)) := by
  refine ⟨?_, fun s h1 h2 => pyStrToInt_of_digits s h1 h2⟩
  unfold handle_telegram_command
  simp only
  by_cases h1 : pyLower (upToAt (partitionSpace text).1) = "/setmaxprice"
  · rw [if_pos h1]
    by_cases h2 : (!pyIsDigitStr (pyStrip (partitionSpace text).2)) = true
    · rw [if_pos h2]
      exact Or.inl rfl
    · rw [if_neg h2]
      rw [overrideAndReply_state]
      by_cases hd : dry
      · simp only [hd, if_true]
        exact Or.inl trivial
      · simp only [hd, if_false]
        have hdig : pyIsDigitStr (pyStrip (partitionSpace text).2) = true := by
          revert h2
          cases pyIsDigitStr (pyStrip (partitionSpace text).2) <;> simp
        exact Or.inr (Or.inr ⟨pyStrip (partitionSpace text).2,
          getMeta_setMeta_same st _ _, hdig⟩)
  · rw [if_neg h1]
    by_cases h3 : pyLower (upToAt (partitionSpace text).1) = "/clearmaxprice"
    · rw [if_pos h3]
      rw [overrideAndReply_state]
      by_cases hd : dry
      · simp only [hd, if_true]
        exact Or.inl trivial
      · simp only [hd, if_false]
        exact Or.inr (Or.inl (getMeta_setMeta_same st _ _))
    · rw [if_neg h3]
      by_cases h4 : pyLower (upToAt (partitionSpace text).1) = "/setkeywords"
      · rw [if_pos h4]
        by_cases h5 : pyStrip (partitionSpace text).2 = ""
        · rw [if_pos h5]
          exact Or.inl rfl
        · rw [if_neg h5]
          by_cases h6 : (parseKeywordList (pyStrip (partitionSpace text).2)).isEmpty = true
          · rw [if_pos h6]
            exact Or.inl rfl
          · rw [if_neg h6]
            rw [overrideAndReply_state]
            by_cases hd : dry
            · simp only [hd, if_true]
              exact Or.inl trivial
            · simp only [hd, if_false]
              exact Or.inl (getMeta_setMeta_ne st _ _ _ (by decide))
      · rw [if_neg h4]
        by_cases h7 : pyLower (upToAt (partitionSpace text).1) = "/clearkeywords"
        · rw [if_pos h7]
          rw [overrideAndReply_state]
          by_cases hd : dry
          · simp only [hd, if_true]
            exact Or.inl trivial
          · simp only [hd, if_false]
            exact Or.inl (getMeta_setMeta_ne st _ _ _ (by decide))
        · rw [if_neg h7]
          by_cases h8 : pyLower (upToAt (partitionSpace text).1) = "/showfilters"
          · rw [if_pos h8]
            cases heff : get_effective_filters settings st <;> simp [heff]
          · rw [if_neg h8]
            by_cases h9 : pyLower (upToAt (partitionSpace text).1) = "/help"
            · rw [if_pos h9]
              exact Or.inl rfl
            · rw [if_neg h9]
              exact Or.inl rfl

/-- C9 counterexample: the superscript two passes Python's isdigit, so
"/setmaxprice ²" persists "²" as the max-price override; that value is not
a decimal-digit string, and the int() parse inside the effective-filter
resolution raises ValueError — the reply step of the very same command
already fails. -/
theorem setmaxprice_superscript_breaks_parse :
    pyIsDigitStr "²" = true ∧
    ("²".data.all isAsciiDigit) = false ∧
    pyStrToInt "²" = .error .valueError ∧
    (handle_telegram_command settingsOneChat emptyStore "/setmaxprice ²" "1"
      false).1.getMeta "filter_max_price_override" = some "²" ∧
    (handle_telegram_command settingsOneChat emptyStore "/setmaxprice ²" "1"
      false).2 = .error .valueError ∧
    get_effective_filters settingsOneChat
      ((handle_telegram_command settingsOneChat emptyStore "/setmaxprice ²" "1"
        false).1) = .error .valueError := by
  exact ⟨rfl, rfl, rfl, rfl, rfl, rfl⟩

/-- Witness for the amended C9 theorem: a concrete /setmaxprice call whose
written value satisfies the disjunction, and a concrete ASCII-digit parse. -/
theorem setmaxprice_override_values_witness :
    (((handle_telegram_command settingsOneChat emptyStore "/setmaxprice 500" "1"
        false).1).getMeta "filter_max_price_override" =
          emptyStore.getMeta "filter_max_price_override" ∨
      (((handle_telegram_command settingsOneChat emptyStore "/setmaxprice 500" "1"
        false).1).getMeta "filter_max_price_override" = some "") ∨
      ∃ s, (((handle_telegram_command settingsOneChat emptyStore "/setmaxprice 500"
          "1" false).1).getMeta "filter_max_price_override" = some s) ∧
        pyIsDigitStr s = true) ∧
    pyStrToInt "500" = .ok ((digitsVal "500".data : Nat) : Int) := by
  refine ⟨(setmaxprice_override_values settingsOneChat emptyStore "/setmaxprice 500"
    "1" false).1, ?_⟩
  exact (setmaxprice_override_values settingsOneChat emptyStore "/setmaxprice 500"
    "1" false).2 "500" (by decide) (by decide)
